import Mathlib

/-!
# Voxel AI Test: terrain, chunk index, visibility and player movement

A shallow embedding of the classes `VoxelWorld` and `PlayerController` of
`src/game.js`, followed by the properties proved about them.

Conventions of the embedding.

* Block coordinates are integers (`Int`): `generateTerrain` only ever passes
  integer loop counters to `addBlock`.
* In the terrain height and in `PlayerController`, every other JavaScript
  number (position and velocity, angles, the argument of `Math.sin`) is
  idealised as a real number, so that arithmetic is exact. Definitions that
  need `Math.sin`, `Math.cos`, `Math.sqrt`, `Math.PI` or a comparison of reals
  cannot be executed; everything over the integers can.
* The visibility test of `optimizeRendering` compares a computed distance with
  a threshold, and rounding decides the comparison near the threshold. Its
  number arithmetic is therefore a parameter (`NumberArith`), with the IEEE 754
  binary64 arithmetic of JavaScript on finite values as the instance
  `binary64`.
* The chunk `Map` is an insertion-ordered association list. Its string key
  `"cx,cz"` is represented by the pair `(cx, cz)` it renders, which is also
  what `optimizeRendering` parses back with `split(',').map(Number)`.
* Mutation is explicit state passing: a method takes the state and returns
  the new state. A `for` loop is a fold over the values of its counter.
* The THREE scene, materials, the geometry cache, the camera and the HUD are
  rendering glue and are not part of the state. The methods of
  `THREE.Vector3` and `THREE.Quaternion` that `update` calls are library code;
  their definitions here follow the library.
-/

namespace VoxelGame

/-! ## Configuration (`CONFIG`, lines 10-40) -/

namespace CONFIG

namespace WORLD

/-- Constant `CONFIG.WORLD.WIDTH`. -/
def WIDTH : Int := 50

/-- Constant `CONFIG.WORLD.HEIGHT`: the world height in blocks. -/
def HEIGHT : Int := 10

/-- Constant `CONFIG.WORLD.DEPTH`. -/
def DEPTH : Int := 50

/-- Constant `CONFIG.WORLD.CHUNK_SIZE`: blocks per chunk. -/
def CHUNK_SIZE : Int := 16

/-- Constant `CONFIG.WORLD.BLOCK_SIZE`. -/
def BLOCK_SIZE : Int := 1

/-- Constant `CONFIG.WORLD.RENDER_DISTANCE`: chunks to render around the player. -/
def RENDER_DISTANCE : Int := 5

end WORLD

end CONFIG

/-! ## Data model -/

/-- The `blockTypes` table of the `VoxelWorld` constructor (lines 78-84). -/
inductive BlockType where
  | AIR
  | GRASS
  | DIRT
  | STONE
  | SAND
  deriving DecidableEq, Repr

/-- The numeric code `blockTypes` gives each type. -/
def BlockType.code : BlockType → Nat
  | .AIR => 0
  | .GRASS => 1
  | .DIRT => 2
  | .STONE => 3
  | .SAND => 4

/-- A block mesh: its `userData` (`x`, `y`, `z`, `type`) and the `visible`
flag of the mesh, which a new `THREE.Mesh` has set to `true`. -/
structure Block where
  x : Int
  y : Int
  z : Int
  type : BlockType
  visible : Bool
  deriving DecidableEq, Repr

/-- The key of a chunk bucket: the pair `(chunkX, chunkZ)` that `getChunkKey`
renders as the string `"chunkX,chunkZ"`. -/
abbrev ChunkKey := Int × Int

/-- The `chunks` map: buckets in insertion order, each a key with the array of
blocks pushed to it. -/
abbrev ChunkMap := List (ChunkKey × List Block)

/-- The state of a `VoxelWorld` that the chunk system reads and writes. -/
structure VoxelWorld where
  chunks : ChunkMap
  deriving DecidableEq, Repr

/-- One call `addBlock(x, y, z, type)`. -/
structure AddBlockCall where
  x : Int
  y : Int
  z : Int
  type : BlockType
  deriving DecidableEq, Repr

/-- A `THREE.Vector3` with exact (real) components. -/
structure Vector3 where
  x : ℝ
  y : ℝ
  z : ℝ

/-! ## The `Map` operations used on `chunks` -/

namespace ChunkMap

/-- Method `chunks.has(key)`. -/
def has (m : ChunkMap) (key : ChunkKey) : Bool :=
  m.any fun e => decide (e.1 = key)

/-- Method `chunks.set(key, value)`: overwrite the entry of `key`, or append a new
entry when the key is absent. -/
def set : ChunkMap → ChunkKey → List Block → ChunkMap
  | [], key, value => [(key, value)]
  | (k, bs) :: rest, key, value =>
    if k = key then (k, value) :: rest else (k, bs) :: set rest key value

/-- Method `chunks.get(key)`: the array stored under `key` (`none` for
`undefined`). -/
def get : ChunkMap → ChunkKey → Option (List Block)
  | [], _ => none
  | (k, bs) :: rest, key => if k = key then some bs else get rest key

/-- Statement `chunks.get(key).push(block)`: the array stored under `key` grows by
`block` at its end; the map is unchanged when the key is absent. -/
def push : ChunkMap → ChunkKey → Block → ChunkMap
  | [], _, _ => []
  | (k, bs) :: rest, key, block =>
    if k = key then (k, bs ++ [block]) :: rest else (k, bs) :: push rest key block

/-- All blocks stored in the map, bucket after bucket. -/
def allBlocks (m : ChunkMap) : List Block :=
  (m.map Prod.snd).flatten

/-- The keys of the map, in insertion order. -/
def keys (m : ChunkMap) : List ChunkKey :=
  m.map Prod.fst

end ChunkMap

/-! ## JavaScript number arithmetic -/

/-- The operations on JavaScript numbers that `optimizeRendering` uses:
`ofInt` is `Number` applied to the decimal rendering of an integer (and the
integer constants of `CONFIG`), `mul`, `sub`, `add` and `lt` are `*`, `-`,
`+` and `<`, `powTwo x` is `Math.pow(x, 2)` and `sqrt` is `Math.sqrt`. The one
law is that `<` is irreflexive, which holds of every JavaScript number. -/
structure NumberArith (α : Type) where
  ofInt : Int → α
  mul : α → α → α
  sub : α → α → α
  add : α → α → α
  powTwo : α → α
  sqrt : α → α
  lt : α → α → Bool
  lt_irrefl : ∀ a, lt a a = false

/-- The numbers `x`, `y`, `z` of the `playerPosition` argument of
`optimizeRendering`. -/
structure Position (α : Type) where
  x : α
  y : α
  z : α

/-- Rounding of a rational to the nearest integer, ties to the even one: the
rounding attribute roundTiesToEven of IEEE 754. -/
def roundHalfEven (q : ℚ) : Int :=
  let f : Int := ⌊q⌋
  if q - f < 1 / 2 then f
  else if 1 / 2 < q - f then f + 1
  else if f % 2 = 0 then f
  else f + 1

/-- The exponent of the spacing of the binary64 numbers around `q`: with
`2 ^ e ≤ |q| < 2 ^ (e + 1)` the 53-bit significands are spaced `2 ^ (e - 52)`
apart, and below `2 ^ (-1022)` (subnormal numbers) the spacing stays
`2 ^ (-1074)`. -/
def ulpExponent (q : ℚ) : Int :=
  max (Int.log 2 |q|) (-1022) - 52

/-- The binary64 number nearest to `q`, ties to even: the result IEEE 754
arithmetic gives an operation whose exact result is `q`, as long as that
result is finite (overflow to an infinity is outside this model). -/
def roundBinary64 (q : ℚ) : ℚ :=
  (roundHalfEven (q / 2 ^ ulpExponent q) : ℚ) * 2 ^ ulpExponent q

/-- The binary64 number nearest to the square root of `x`, for `x ≥ 0`: the
correctly rounded square root that `Math.sqrt` returns. With
`2 ^ k ≤ sqrt x < 2 ^ (k + 1)` and `u = 2 ^ (k - 52)` the result is `m * u`
for the integer `m` nearest to `sqrt (x / u ^ 2)`, found from the integer
square root `s` by comparing `x / u ^ 2` with `(s + 1/2) ^ 2`. -/
def sqrtBinary64 (x : ℚ) : ℚ :=
  let k : Int := Int.log 2 x / 2
  let u : ℚ := 2 ^ (k - 52)
  let n : ℚ := x / (u * u)
  let s : Nat := Nat.sqrt ⌊n⌋₊
  let m : Nat :=
    if n < (s : ℚ) * s + s + 1 / 4 then s
    else if (s : ℚ) * s + s + 1 / 4 < n then s + 1
    else if s % 2 = 0 then s
    else s + 1
  (m : ℚ) * u

/-- The arithmetic of JavaScript numbers on finite values: each operation is
the exact one followed by rounding to binary64. `Math.pow(x, 2)` is taken to
be the correctly rounded square. Infinities and NaN are not represented. -/
def binary64 : NumberArith ℚ where
  ofInt n := roundBinary64 (n : ℚ)
  mul a b := roundBinary64 (a * b)
  sub a b := roundBinary64 (a - b)
  add a b := roundBinary64 (a + b)
  powTwo a := roundBinary64 (a * a)
  sqrt a := sqrtBinary64 a
  lt a b := decide (a < b)
  lt_irrefl := fun a => decide_eq_false (lt_irrefl a)

/-! ## `VoxelWorld` (lines 74-193) -/

/-- The values a loop `for (let i = lo; i < hi; i++)` gives its counter. -/
def forRange (lo hi : Int) : List Int :=
  (List.range (hi - lo).toNat).map fun (i : Nat) => lo + (i : Int)

namespace VoxelWorld

/-- The world of `new VoxelWorld(scene)`: `chunks = new Map()`. -/
def empty : VoxelWorld :=
  { chunks := [] }

/-- Method `getChunkKey(x, z)` (lines 168-172): `Math.floor` of the exact quotients by
`CHUNK_SIZE`. -/
def getChunkKey (x z : Int) : ChunkKey :=
  let chunkX : Int := ⌊(x : ℚ) / (CONFIG.WORLD.CHUNK_SIZE : ℚ)⌋
  let chunkZ : Int := ⌊(z : ℚ) / (CONFIG.WORLD.CHUNK_SIZE : ℚ)⌋
  (chunkX, chunkZ)

/-- The mesh `addBlock` builds: `userData = { x, y, z, type }`, visible. -/
def newBlock (x y z : Int) (type : BlockType) : Block :=
  { x := x, y := y, z := z, type := type, visible := true }

/-- Method `addBlock(x, y, z, type)` (lines 134-154). -/
def addBlock (w : VoxelWorld) (x y z : Int) (type : BlockType) : VoxelWorld :=
  if type = BlockType.AIR then w
  else
    let block := newBlock x y z type
    let chunkKey := getChunkKey x z
    let chunks1 :=
      if !ChunkMap.has w.chunks chunkKey then ChunkMap.set w.chunks chunkKey []
      else w.chunks
    { chunks := ChunkMap.push chunks1 chunkKey block }

/-- Apply a sequence of `addBlock` calls, first call first. -/
def addBlocks (w : VoxelWorld) (calls : List AddBlockCall) : VoxelWorld :=
  calls.foldl (fun w c => addBlock w c.x c.y c.z c.type) w

/-- The inner loop of `generateTerrain` (lines 123-129): the `addBlock` calls
issued for the column `(x, z)` once its `height` is known, in order. -/
def columnCalls (x z height : Int) : List AddBlockCall :=
  (forRange 0 height).map fun y =>
    let blockType :=
      if y = height - 1 then BlockType.GRASS
      else if y > height - 4 then BlockType.DIRT
      else BlockType.STONE
    { x := x, y := y, z := z, type := blockType }

/-- The column height of `generateTerrain` (lines 117-121), over the reals. -/
noncomputable def terrainHeight (x z : Int) : Int :=
  ⌊(5 : ℝ) + Real.sin ((x : ℝ) * 0.1) * 2 + Real.cos ((z : ℝ) * 0.1) * 2⌋

/-- The grid cells `(x, z)` the two outer loops of `generateTerrain` visit
(lines 114-115), in order. `WIDTH / 2` and `DEPTH / 2` are exact. -/
def terrainColumns : List (Int × Int) :=
  (forRange (-(CONFIG.WORLD.WIDTH / 2)) (CONFIG.WORLD.WIDTH / 2)).flatMap fun x =>
    (forRange (-(CONFIG.WORLD.DEPTH / 2)) (CONFIG.WORLD.DEPTH / 2)).map fun z => (x, z)

/-- Every `addBlock` call `generateTerrain` issues, in order: the trace of
the loop nest. -/
noncomputable def terrainCalls : List AddBlockCall :=
  terrainColumns.flatMap fun c => columnCalls c.1 c.2 (terrainHeight c.1 c.2)

/-- Method `generateTerrain()` (lines 110-132): the three nested loops, each
threading the world through its body. -/
noncomputable def generateTerrain (w : VoxelWorld) : VoxelWorld :=
  let WIDTH := CONFIG.WORLD.WIDTH
  let DEPTH := CONFIG.WORLD.DEPTH
  (forRange (-(WIDTH / 2)) (WIDTH / 2)).foldl (fun (w : VoxelWorld) (x : Int) =>
    (forRange (-(DEPTH / 2)) (DEPTH / 2)).foldl (fun (w : VoxelWorld) (z : Int) =>
      let height : Int :=
        ⌊(5 : ℝ) + Real.sin ((x : ℝ) * 0.1) * 2 + Real.cos ((z : ℝ) * 0.1) * 2⌋
      (forRange 0 height).foldl (fun (w : VoxelWorld) (y : Int) =>
        let blockType :=
          if y = height - 1 then BlockType.GRASS
          else if y > height - 4 then BlockType.DIRT
          else BlockType.STONE
        addBlock w x y z blockType) w) w) w

/-- Method `optimizeRendering(playerPosition)` (lines 174-192), in the number
arithmetic `A`. The key string of a bucket is split and each part converted
with `Number`, which is `A.ofInt` of the pair's component. -/
def optimizeRendering {α : Type} (A : NumberArith α) (w : VoxelWorld)
    (playerPosition : Position α) : VoxelWorld :=
  let renderDistance : α :=
    A.mul (A.ofInt CONFIG.WORLD.RENDER_DISTANCE) (A.ofInt CONFIG.WORLD.CHUNK_SIZE)
  { chunks := w.chunks.map fun entry =>
      let chunkX : α := A.ofInt entry.1.1
      let chunkZ : α := A.ofInt entry.1.2
      let chunkWorldX := A.mul chunkX (A.ofInt CONFIG.WORLD.CHUNK_SIZE)
      let chunkWorldZ := A.mul chunkZ (A.ofInt CONFIG.WORLD.CHUNK_SIZE)
      let distance :=
        A.sqrt
          (A.add (A.powTwo (A.sub chunkWorldX playerPosition.x))
            (A.powTwo (A.sub chunkWorldZ playerPosition.z)))
      (entry.1, entry.2.map fun block =>
        { block with visible := A.lt distance renderDistance }) }

end VoxelWorld

/-! ## Player configuration and numeric helpers -/

namespace CONFIG

namespace PLAYER

/-- Constant `CONFIG.PLAYER.MOVE_SPEED`. -/
noncomputable def MOVE_SPEED : ℝ := 0.1

/-- Constant `CONFIG.PLAYER.JUMP_FORCE`. -/
noncomputable def JUMP_FORCE : ℝ := 0.2

/-- Constant `CONFIG.PLAYER.GRAVITY`. -/
noncomputable def GRAVITY : ℝ := -0.01

end PLAYER

namespace CONTROLS

/-- Constant `CONFIG.CONTROLS.MOUSE_SENSITIVITY`. -/
noncomputable def MOUSE_SENSITIVITY : ℝ := 0.002

/-- Constant `CONFIG.CONTROLS.TOUCH_SENSITIVITY`. -/
noncomputable def TOUCH_SENSITIVITY : ℝ := 0.003

end CONTROLS

end CONFIG

/-- The JavaScript `a || b` on numbers: `a` when it is truthy (not zero),
otherwise `b`. -/
noncomputable def jsOr (a b : ℝ) : ℝ :=
  if a ≠ 0 then a else b

/-- A `THREE.Quaternion`. -/
structure Quaternion where
  x : ℝ
  y : ℝ
  z : ℝ
  w : ℝ

/-- A `THREE.Euler`: the angles only (the order `'YXZ'` is not used by the
controller itself). -/
structure Euler where
  x : ℝ
  y : ℝ
  z : ℝ

namespace Quaternion

/-- Modelled from the spec: `THREE.Quaternion.setFromAxisAngle` is three.js
library code, not under src/; it is the rotation by `angle` about the unit
vector `axis`, built the way the library builds it. -/
noncomputable def setFromAxisAngle (axis : Vector3) (angle : ℝ) : Quaternion :=
  let halfAngle := angle / 2
  let s := Real.sin halfAngle
  { x := axis.x * s, y := axis.y * s, z := axis.z * s, w := Real.cos halfAngle }

end Quaternion

namespace Vector3

/-- Modelled from the spec: `THREE.Vector3.length` is three.js library code,
not under src/; it is the Euclidean length (the spec's magnitude). -/
noncomputable def length (v : Vector3) : ℝ :=
  Real.sqrt (v.x * v.x + v.y * v.y + v.z * v.z)

/-- Modelled from the spec: `THREE.Vector3.multiplyScalar` is three.js library
code, not under src/; it scales every component. -/
def multiplyScalar (v : Vector3) (scalar : ℝ) : Vector3 :=
  { x := v.x * scalar, y := v.y * scalar, z := v.z * scalar }

/-- Modelled from the spec: `THREE.Vector3.divideScalar` is three.js library
code, not under src/; the library multiplies by the inverse. -/
noncomputable def divideScalar (v : Vector3) (scalar : ℝ) : Vector3 :=
  multiplyScalar v (1 / scalar)

/-- Modelled from the spec: `THREE.Vector3.normalize` is three.js library
code, not under src/; the library divides by `length() || 1`. -/
noncomputable def normalize (v : Vector3) : Vector3 :=
  divideScalar v (jsOr (length v) 1)

/-- Modelled from the spec: `THREE.Vector3.add` is three.js library code, not
under src/; it adds componentwise. -/
def add (v w : Vector3) : Vector3 :=
  { x := v.x + w.x, y := v.y + w.y, z := v.z + w.z }

/-- Modelled from the spec: `THREE.Vector3.applyQuaternion` is three.js
library code, not under src/; the library computes `q * v * q⁻¹` in two
steps. -/
def applyQuaternion (v : Vector3) (q : Quaternion) : Vector3 :=
  let ix := q.w * v.x + q.y * v.z - q.z * v.y
  let iy := q.w * v.y + q.z * v.x - q.x * v.z
  let iz := q.w * v.z + q.x * v.y - q.y * v.x
  let iw := -q.x * v.x - q.y * v.y - q.z * v.z
  { x := ix * q.w + iw * -q.x + iy * -q.z - iz * -q.y
    y := iy * q.w + iw * -q.y + iz * -q.x - ix * -q.z
    z := iz * q.w + iw * -q.z + ix * -q.y - iy * -q.x }

/-- Modelled from the spec: `THREE.Vector3.applyAxisAngle` is three.js library
code, not under src/; the spec calls it the rotation about `axis` by `angle`,
and the library applies the quaternion of that rotation. -/
noncomputable def applyAxisAngle (v : Vector3) (axis : Vector3) (angle : ℝ) : Vector3 :=
  applyQuaternion v (Quaternion.setFromAxisAngle axis angle)

end Vector3

/-! ## `PlayerController` (lines 198-408) -/

/-- The field `joystick` of the controller. -/
structure Joystick where
  x : ℝ
  y : ℝ

/-- The field `touch` of the controller. -/
structure Touch where
  x : ℝ
  y : ℝ
  active : Bool

/-- The state of a `PlayerController`: its fields, and the closure variables
`touchStartX`, `touchStartY` of `setupMobileControls`. `keys code` is the
truthiness of `this.keys[code]`. The camera, which `update` only writes, is
left out. -/
structure PlayerController where
  velocity : Vector3
  position : Vector3
  rotation : Euler
  isJumping : Bool
  canJump : Bool
  keys : String → Bool
  joystick : Joystick
  touch : Touch
  touchStartX : ℝ
  touchStartY : ℝ

/-- An input event or animation frame that reaches the controller. -/
inductive Event where
  | keydown (code : String)
  | keyup (code : String)
  | mousemove (pointerLocked : Bool) (movementX movementY : ℝ)
  | joystick (x y : ℝ)
  | jumpButton
  | touchstart (onControls : Bool) (clientX clientY : ℝ)
  | touchmove (onControls : Bool) (clientX clientY : ℝ)
  | touchend
  | frame (deltaTime : ℝ)

namespace PlayerController

/-- The state the constructor leaves (lines 199-213). -/
def initial : PlayerController :=
  { velocity := { x := 0, y := 0, z := 0 }
    position := { x := 0, y := 10, z := 0 }
    rotation := { x := 0, y := 0, z := 0 }
    isJumping := false
    canJump := true
    keys := fun _ => false
    joystick := { x := 0, y := 0 }
    touch := { x := 0, y := 0, active := false }
    touchStartX := 0
    touchStartY := 0 }

/-- The raw move vector `update` builds from the keys and the joystick (lines
346-359). -/
noncomputable def moveVector (p : PlayerController) : Vector3 :=
  let mv0 : Vector3 := { x := 0, y := 0, z := 0 }
  let mv1 : Vector3 :=
    if p.keys "KeyW" || decide (p.joystick.y > 0) then
      { mv0 with z := mv0.z - jsOr p.joystick.y 1 }
    else mv0
  let mv2 : Vector3 :=
    if p.keys "KeyS" || decide (p.joystick.y < 0) then
      { mv1 with z := mv1.z - jsOr p.joystick.y (-1) }
    else mv1
  let mv3 : Vector3 :=
    if p.keys "KeyA" || decide (p.joystick.x < 0) then
      { mv2 with x := mv2.x + jsOr p.joystick.x (-1) }
    else mv2
  if p.keys "KeyD" || decide (p.joystick.x > 0) then
    { mv3 with x := mv3.x + jsOr p.joystick.x 1 }
  else mv3

/-- Method `update(deltaTime)` (lines 344-399), without the camera and HUD
writes. -/
noncomputable def update (p : PlayerController) (_deltaTime : ℝ) : PlayerController :=
  let moveVector := p.moveVector
  let velocity1 : Vector3 :=
    if Vector3.length moveVector > 0 then
      let moveVector := Vector3.normalize moveVector
      let moveVector := Vector3.multiplyScalar moveVector CONFIG.PLAYER.MOVE_SPEED
      let moveVector :=
        Vector3.applyAxisAngle moveVector { x := 0, y := 1, z := 0 } p.rotation.y
      { p.velocity with x := moveVector.x, z := moveVector.z }
    else
      { p.velocity with x := p.velocity.x * 0.9, z := p.velocity.z * 0.9 }
  let velocity2 : Vector3 := { velocity1 with y := velocity1.y + CONFIG.PLAYER.GRAVITY }
  let position1 : Vector3 := Vector3.add p.position velocity2
  if position1.y < 8 then
    { p with
      position := { position1 with y := 8 }
      velocity := { velocity2 with y := 0 }
      canJump := true
      isJumping := false }
  else
    { p with position := position1, velocity := velocity2 }

/-- Method `jump()` (lines 401-407). -/
noncomputable def jump (p : PlayerController) : PlayerController :=
  if p.canJump && !p.isJumping then
    { p with
      velocity := { p.velocity with y := CONFIG.PLAYER.JUMP_FORCE }
      isJumping := true
      canJump := false }
  else p

/-- The look update shared by the two handlers: yaw and pitch move against the
deltas, and the pitch is clamped with `Math.max(-PI/2, Math.min(PI/2, ·))`
(lines 233-235 and 331-333). -/
noncomputable def look (p : PlayerController) (deltaX deltaY sensitivity : ℝ) :
    PlayerController :=
  let rotationY := p.rotation.y - deltaX * sensitivity
  let rotationX := p.rotation.x - deltaY * sensitivity
  let rotationX := max (-Real.pi / 2) (min (Real.pi / 2) rotationX)
  { p with rotation := { p.rotation with x := rotationX, y := rotationY } }

/-- The `mousemove` handler (lines 231-237). -/
noncomputable def onMousemove (p : PlayerController) (pointerLocked : Bool)
    (movementX movementY : ℝ) : PlayerController :=
  if pointerLocked then look p movementX movementY CONFIG.CONTROLS.MOUSE_SENSITIVITY
  else p

/-- The document `touchstart` handler (lines 315-321). -/
def onTouchstart (p : PlayerController) (onControls : Bool) (clientX clientY : ℝ) :
    PlayerController :=
  if onControls then p
  else
    { p with
      touchStartX := clientX
      touchStartY := clientY
      touch := { p.touch with active := true } }

/-- The document `touchmove` handler (lines 323-337). -/
noncomputable def onTouchmove (p : PlayerController) (onControls : Bool)
    (clientX clientY : ℝ) : PlayerController :=
  if !p.touch.active || onControls then p
  else
    let deltaX := clientX - p.touchStartX
    let deltaY := clientY - p.touchStartY
    let p1 := look p deltaX deltaY CONFIG.CONTROLS.TOUCH_SENSITIVITY
    { p1 with touchStartX := clientX, touchStartY := clientY }

/-- The document `touchend` handler (lines 339-341). -/
def onTouchend (p : PlayerController) : PlayerController :=
  { p with touch := { p.touch with active := false } }

/-- One event or frame. The joystick handlers (lines 255-303) write nothing but
`this.joystick`; the pair they store is the event's payload. -/
noncomputable def step (p : PlayerController) : Event → PlayerController
  | .keydown code => { p with keys := fun c => if c = code then true else p.keys c }
  | .keyup code => { p with keys := fun c => if c = code then false else p.keys c }
  | .mousemove pointerLocked movementX movementY =>
    onMousemove p pointerLocked movementX movementY
  | .joystick x y => { p with joystick := { x := x, y := y } }
  | .jumpButton => jump p
  | .touchstart onControls clientX clientY => onTouchstart p onControls clientX clientY
  | .touchmove onControls clientX clientY => onTouchmove p onControls clientX clientY
  | .touchend => onTouchend p
  | .frame deltaTime => update p deltaTime

/-- The state after a sequence of events, first event first. -/
noncomputable def run (p : PlayerController) (events : List Event) : PlayerController :=
  events.foldl step p

/-- The state after one call of `update` for each element of `deltaTimes`,
first element first. -/
noncomputable def updates (p : PlayerController) (deltaTimes : List ℝ) : PlayerController :=
  deltaTimes.foldl update p

/-- Whether the next `update` touches the ground: the test `position.y < 8` of
line 383, on the position that lines 377-380 compute from the state `p`. -/
noncomputable def groundContact (p : PlayerController) : Bool :=
  decide (p.position.y + (p.velocity.y + CONFIG.PLAYER.GRAVITY) < 8)

/-- The history the jump rule is described with, kept beside a run of events
from the state `p`: whether `jump()` has been called since the last ground
contact, or since the start (where the answer is `jumped`) when there was
none. A call of `jump()` records a jump, an `update` with ground contact
clears the record, and nothing else touches it. -/
noncomputable def jumpedSinceGround (p : PlayerController) (jumped : Bool) :
    List Event → Bool
  | [] => jumped
  | e :: events =>
    let jumped1 : Bool :=
      match e with
      | .jumpButton => true
      | .frame _ => if p.groundContact then false else jumped
      | _ => jumped
    jumpedSinceGround (p.step e) jumped1 events

end PlayerController

/-! ## Helper lemmas -/

theorem forRange_mem (lo hi i : Int) : i ∈ forRange lo hi ↔ lo ≤ i ∧ i < hi := by
  unfold forRange
  simp only [List.mem_map, List.mem_range]
  constructor
  · rintro ⟨n, hn, rfl⟩
    omega
  · rintro ⟨h1, h2⟩
    exact ⟨(i - lo).toNat, by omega, by omega⟩

theorem forRange_nodup (lo hi : Int) : (forRange lo hi).Nodup := by
  unfold forRange
  refine List.Nodup.map ?_ (List.nodup_range _)
  intro a b h
  simpa using h

theorem forRange_length (lo hi : Int) : (forRange lo hi).length = (hi - lo).toNat := by
  simp [forRange]

/-! ## Terrain generation -/

theorem addBlocks_append (w : VoxelWorld) (l₁ l₂ : List AddBlockCall) :
    VoxelWorld.addBlocks w (l₁ ++ l₂) =
      VoxelWorld.addBlocks (VoxelWorld.addBlocks w l₁) l₂ := by
  simp [VoxelWorld.addBlocks, List.foldl_append]

theorem addBlocks_flatMap {α : Type} (l : List α) (f : α → List AddBlockCall)
    (w : VoxelWorld) :
    VoxelWorld.addBlocks w (l.flatMap f) = l.foldl (fun w a => VoxelWorld.addBlocks w (f a)) w := by
  induction l generalizing w with
  | nil => simp [VoxelWorld.addBlocks]
  | cons a l ih => simp [List.flatMap_cons, addBlocks_append, ih]

theorem generateTerrain_eq_addBlocks (w : VoxelWorld) :
    VoxelWorld.generateTerrain w = VoxelWorld.addBlocks w VoxelWorld.terrainCalls := by
  unfold VoxelWorld.terrainCalls VoxelWorld.terrainColumns
  rw [List.flatMap_assoc, addBlocks_flatMap]
  unfold VoxelWorld.generateTerrain
  simp only
  congr 1
  funext w x
  rw [List.flatMap_map, addBlocks_flatMap]
  congr 1
  funext w z
  simp only [VoxelWorld.addBlocks, VoxelWorld.columnCalls, VoxelWorld.terrainHeight, List.foldl_map]

theorem filter_flatMap_key {α β : Type} [DecidableEq α] (key : β → α) (f : α → List β)
    (hkey : ∀ a, ∀ b ∈ f a, key b = a) (l : List α) (hl : l.Nodup) (a : α) (ha : a ∈ l) :
    (l.flatMap f).filter (fun b => decide (key b = a)) = f a := by
  have hnone : ∀ l' : List α, a ∉ l' →
      (l'.flatMap f).filter (fun b => decide (key b = a)) = [] := by
    intro l' hn
    rw [List.filter_eq_nil_iff]
    intro b hb
    rw [List.mem_flatMap] at hb
    obtain ⟨c, hc, hbc⟩ := hb
    have := hkey c b hbc
    simp only [decide_eq_true_eq]
    rintro rfl
    exact hn (this ▸ hc)
  induction l with
  | nil => simp at ha
  | cons c l ih =>
    rw [List.nodup_cons] at hl
    rw [List.flatMap_cons, List.filter_append]
    by_cases hca : c = a
    · subst hca
      rw [hnone l hl.1, List.append_nil, List.filter_eq_self]
      intro b hb
      simp [hkey c b hb]
    · have hal : a ∈ l := by
        rcases List.mem_cons.1 ha with h | h
        · exact absurd h.symm hca
        · exact h
      rw [ih hl.2 hal]
      have : (f c).filter (fun b => decide (key b = a)) = [] := by
        rw [List.filter_eq_nil_iff]
        intro b hb
        simp [hkey c b hb, hca]
      rw [this, List.nil_append]

theorem terrainColumns_mem (x z : Int) :
    (x, z) ∈ VoxelWorld.terrainColumns ↔ (-25 ≤ x ∧ x < 25) ∧ (-25 ≤ z ∧ z < 25) := by
  unfold VoxelWorld.terrainColumns
  simp only [List.mem_flatMap, List.mem_map, forRange_mem, CONFIG.WORLD.WIDTH,
    CONFIG.WORLD.DEPTH, Prod.mk.injEq]
  constructor
  · rintro ⟨a, ha, b, hb, rfl, rfl⟩
    exact ⟨by omega, by omega⟩
  · rintro ⟨hx, hz⟩
    exact ⟨x, by omega, z, by omega, rfl, rfl⟩

theorem terrainColumns_nodup : VoxelWorld.terrainColumns.Nodup := by
  unfold VoxelWorld.terrainColumns
  rw [List.nodup_flatMap]
  refine ⟨?_, ?_⟩
  · intro x _
    refine List.Nodup.map ?_ (forRange_nodup _ _)
    intro a b h
    simpa using h
  · refine List.Nodup.pairwise_of_forall_ne (forRange_nodup _ _) ?_
    intro a _ b _ hab
    simp only [Function.onFun, List.disjoint_left, List.mem_map]
    rintro c ⟨_, _, rfl⟩ ⟨_, _, h⟩
    simp only [Prod.mk.injEq] at h
    exact hab h.1.symm

theorem terrainColumns_length : VoxelWorld.terrainColumns.length = 2500 := by
  unfold VoxelWorld.terrainColumns
  rw [List.length_flatMap]
  have hconst : (List.length ∘ fun x : Int =>
      (forRange (-(CONFIG.WORLD.DEPTH / 2)) (CONFIG.WORLD.DEPTH / 2)).map fun z => (x, z)) =
      fun _ => 50 := by
    funext x
    simp [forRange_length, CONFIG.WORLD.DEPTH]
  rw [hconst, List.map_const', List.sum_replicate, forRange_length]
  simp [CONFIG.WORLD.WIDTH]

theorem terrainCalls_column (x z : Int) (hcell : (x, z) ∈ VoxelWorld.terrainColumns) :
    VoxelWorld.terrainCalls.filter (fun c => decide (c.x = x ∧ c.z = z)) =
      VoxelWorld.columnCalls x z (VoxelWorld.terrainHeight x z) := by
  have := filter_flatMap_key (fun c : AddBlockCall => (c.x, c.z))
    (fun c => VoxelWorld.columnCalls c.1 c.2 (VoxelWorld.terrainHeight c.1 c.2))
    (by
      intro a b hb
      simp only [VoxelWorld.columnCalls, List.mem_map] at hb
      obtain ⟨y, _, rfl⟩ := hb
      rfl)
    VoxelWorld.terrainColumns terrainColumns_nodup (x, z) hcell
  simpa [VoxelWorld.terrainCalls] using this

theorem columnCalls_countP (x z height y : Int) :
    (VoxelWorld.columnCalls x z height).countP (fun c => decide (c.y = y)) =
      if 0 ≤ y ∧ y < height then 1 else 0 := by
  unfold VoxelWorld.columnCalls
  rw [List.countP_map]
  have : (forRange 0 height).countP
      ((fun c : AddBlockCall => decide (c.y = y)) ∘ fun y' =>
        { x := x, y := y', z := z,
          type := if y' = height - 1 then BlockType.GRASS
            else if y' > height - 4 then BlockType.DIRT else BlockType.STONE }) =
      (forRange 0 height).count y := by
    rw [List.count]
    congr 1
  rw [this]
  split_ifs with h
  · exact List.count_eq_one_of_mem (forRange_nodup _ _) ((forRange_mem _ _ _).2 h)
  · exact List.count_eq_zero_of_not_mem (fun hm => h ((forRange_mem _ _ _).1 hm))

theorem terrainHeight_origin : VoxelWorld.terrainHeight 0 0 = 7 := by
  unfold VoxelWorld.terrainHeight
  norm_num

theorem columnCalls_mem (x z height : Int) (c : AddBlockCall)
    (hc : c ∈ VoxelWorld.columnCalls x z height) :
    c.x = x ∧ c.z = z ∧ 0 ≤ c.y ∧ c.y < height ∧
      c.type = if c.y = height - 1 then BlockType.GRASS
        else if height - 4 < c.y ∧ c.y < height - 1 then BlockType.DIRT
        else BlockType.STONE := by
  simp only [VoxelWorld.columnCalls, List.mem_map, forRange_mem] at hc
  obtain ⟨y, ⟨h0, h1⟩, rfl⟩ := hc
  refine ⟨rfl, rfl, h0, by simpa using h1, ?_⟩
  simp only
  by_cases hy : y = height - 1
  · simp [hy]
  · have h2 : y < height - 1 := by omega
    simp [hy, h2]

theorem terrainCalls_mem (c : AddBlockCall) (hc : c ∈ VoxelWorld.terrainCalls) :
    (c.x, c.z) ∈ VoxelWorld.terrainColumns ∧
      c ∈ VoxelWorld.columnCalls c.x c.z (VoxelWorld.terrainHeight c.x c.z) := by
  simp only [VoxelWorld.terrainCalls, List.mem_flatMap] at hc
  obtain ⟨col, hcol, hmem⟩ := hc
  obtain ⟨hx, hz, -⟩ := columnCalls_mem _ _ _ _ hmem
  rw [hx, hz]
  exact ⟨hcol, hmem⟩

/-- C1: `generateTerrain` is the fold of `addBlock` over its call trace; for
every grid cell `(x, z)` it visits, with `h` the height computed for it, the
trace holds exactly one call for each `y` with `0 ≤ y < h` and none for any
other `y`; the inner loop issues no call at all for a height `h ≤ 0`; every
call's block type is GRASS at `y = h - 1`, DIRT for `h - 4 < y < h - 1` and
STONE otherwise; at `(0, 0)` the height is 7 and the calls are STONE at
`y = 0, 1, 2, 3`, DIRT at `y = 4, 5` and GRASS at `y = 6`. -/
theorem C1_generateTerrain_column_layers :
    (∀ w, VoxelWorld.generateTerrain w = VoxelWorld.addBlocks w VoxelWorld.terrainCalls) ∧
    (∀ x z : Int, (x, z) ∈ VoxelWorld.terrainColumns → ∀ y : Int,
      VoxelWorld.terrainCalls.countP (fun c => decide (c.x = x ∧ c.z = z ∧ c.y = y)) =
        if 0 ≤ y ∧ y < VoxelWorld.terrainHeight x z then 1 else 0) ∧
    (∀ x z height : Int, height ≤ 0 → VoxelWorld.columnCalls x z height = []) ∧
    (∀ c ∈ VoxelWorld.terrainCalls,
      c.type =
        if c.y = VoxelWorld.terrainHeight c.x c.z - 1 then BlockType.GRASS
        else if VoxelWorld.terrainHeight c.x c.z - 4 < c.y ∧
            c.y < VoxelWorld.terrainHeight c.x c.z - 1 then BlockType.DIRT
        else BlockType.STONE) ∧
    VoxelWorld.terrainHeight 0 0 = 7 ∧
    VoxelWorld.terrainCalls.filter (fun c => decide (c.x = 0 ∧ c.z = 0)) =
      [ { x := 0, y := 0, z := 0, type := BlockType.STONE },
        { x := 0, y := 1, z := 0, type := BlockType.STONE },
        { x := 0, y := 2, z := 0, type := BlockType.STONE },
        { x := 0, y := 3, z := 0, type := BlockType.STONE },
        { x := 0, y := 4, z := 0, type := BlockType.DIRT },
        { x := 0, y := 5, z := 0, type := BlockType.DIRT },
        { x := 0, y := 6, z := 0, type := BlockType.GRASS } ] := by
  refine ⟨generateTerrain_eq_addBlocks, ?_, ?_, ?_, terrainHeight_origin, ?_⟩
  · intro x z hcell y
    have hsplit : VoxelWorld.terrainCalls.countP
        (fun c => decide (c.x = x ∧ c.z = z ∧ c.y = y)) =
        (VoxelWorld.terrainCalls.filter (fun c => decide (c.x = x ∧ c.z = z))).countP
          (fun c => decide (c.y = y)) := by
      rw [List.countP_filter]
      congr 1
      funext c
      by_cases h1 : c.x = x <;> by_cases h2 : c.z = z <;> by_cases h3 : c.y = y <;>
        simp [h1, h2, h3]
    rw [hsplit, terrainCalls_column x z hcell, columnCalls_countP]
  · intro x z height hheight
    simp [VoxelWorld.columnCalls, forRange, hheight]
  · intro c hc
    exact (columnCalls_mem _ _ _ _ (terrainCalls_mem c hc).2).2.2.2.2
  · rw [terrainCalls_column 0 0 ((terrainColumns_mem 0 0).2 (by omega)), terrainHeight_origin]
    decide

/-- The column at the origin is a visited grid cell, and C1 gives its calls:
one for each `y` below its height, none above. -/
theorem C1_generateTerrain_column_layers_witness :
    (0, 0) ∈ VoxelWorld.terrainColumns ∧
    ∀ y : Int,
      VoxelWorld.terrainCalls.countP (fun c => decide (c.x = 0 ∧ c.z = 0 ∧ c.y = y)) =
        if 0 ≤ y ∧ y < VoxelWorld.terrainHeight 0 0 then 1 else 0 :=
  ⟨(terrainColumns_mem 0 0).2 (by omega),
    C1_generateTerrain_column_layers.2.1 0 0 ((terrainColumns_mem 0 0).2 (by omega))⟩

/-! ## The chunk index -/

theorem ChunkMap.has_eq_isSome (m : ChunkMap) (key : ChunkKey) :
    ChunkMap.has m key = (ChunkMap.get m key).isSome := by
  induction m with
  | nil => rfl
  | cons e rest ih =>
    obtain ⟨k, bs⟩ := e
    by_cases h : k = key
    · simp [ChunkMap.has, ChunkMap.get, h]
    · have ih' : rest.any (fun e => decide (e.1 = key)) = (ChunkMap.get rest key).isSome := ih
      simp [ChunkMap.has, ChunkMap.get, h, ih']

theorem ChunkMap.has_iff_mem_keys (m : ChunkMap) (key : ChunkKey) :
    ChunkMap.has m key = true ↔ key ∈ ChunkMap.keys m := by
  simp only [ChunkMap.has, ChunkMap.keys, List.any_eq_true, decide_eq_true_eq, List.mem_map]

theorem ChunkMap.get_set (m : ChunkMap) (key key' : ChunkKey) (value : List Block) :
    ChunkMap.get (ChunkMap.set m key value) key' =
      if key = key' then some value else ChunkMap.get m key' := by
  induction m with
  | nil => simp [ChunkMap.set, ChunkMap.get]
  | cons e rest ih =>
    obtain ⟨k, bs⟩ := e
    by_cases h : k = key
    · subst h
      by_cases h' : k = key' <;> simp [ChunkMap.set, ChunkMap.get, h']
    · by_cases h' : k = key'
      · subst h'
        simp [ChunkMap.set, ChunkMap.get, h, Ne.symm h]
      · simp [ChunkMap.set, ChunkMap.get, h, h', ih]

theorem ChunkMap.get_push (m : ChunkMap) (key key' : ChunkKey) (block : Block) :
    ChunkMap.get (ChunkMap.push m key block) key' =
      if key = key' then (ChunkMap.get m key').map (· ++ [block]) else ChunkMap.get m key' := by
  induction m with
  | nil => simp [ChunkMap.push, ChunkMap.get]
  | cons e rest ih =>
    obtain ⟨k, bs⟩ := e
    by_cases h : k = key
    · subst h
      by_cases h' : k = key' <;> simp [ChunkMap.push, ChunkMap.get, h']
    · by_cases h' : k = key'
      · subst h'
        simp [ChunkMap.push, ChunkMap.get, h, Ne.symm h]
      · simp [ChunkMap.push, ChunkMap.get, h, h', ih]

theorem ChunkMap.set_of_not_mem (m : ChunkMap) (key : ChunkKey) (value : List Block)
    (h : key ∉ ChunkMap.keys m) : ChunkMap.set m key value = m ++ [(key, value)] := by
  induction m with
  | nil => rfl
  | cons e rest ih =>
    obtain ⟨k, bs⟩ := e
    simp only [ChunkMap.keys, List.map_cons, List.mem_cons, not_or] at h
    have hk : ¬ k = key := fun hk => h.1 hk.symm
    simp only [ChunkMap.set, hk, if_false, List.cons_append]
    rw [ih h.2]

theorem ChunkMap.keys_push (m : ChunkMap) (key : ChunkKey) (block : Block) :
    ChunkMap.keys (ChunkMap.push m key block) = ChunkMap.keys m := by
  induction m with
  | nil => rfl
  | cons e rest ih =>
    obtain ⟨k, bs⟩ := e
    by_cases h : k = key
    · simp [ChunkMap.push, ChunkMap.keys, h]
    · have ih' : List.map Prod.fst (ChunkMap.push rest key block) = List.map Prod.fst rest := ih
      simp [ChunkMap.push, ChunkMap.keys, h, ih']

theorem ChunkMap.allBlocks_push (m : ChunkMap) (key : ChunkKey) (block : Block)
    (h : key ∈ ChunkMap.keys m) :
    List.Perm (ChunkMap.allBlocks (ChunkMap.push m key block))
      (ChunkMap.allBlocks m ++ [block]) := by
  induction m with
  | nil => simp [ChunkMap.keys] at h
  | cons e rest ih =>
    obtain ⟨k, bs⟩ := e
    by_cases hk : k = key
    · simp only [ChunkMap.push, hk, if_true, ChunkMap.allBlocks, List.map_cons,
        List.flatten_cons, List.append_assoc]
      exact List.Perm.append_left bs List.perm_append_comm
    · have hrest : key ∈ ChunkMap.keys rest := by
        simp only [ChunkMap.keys, List.map_cons, List.mem_cons] at h
        rcases h with h | h
        · exact absurd h.symm hk
        · exact h
      simp only [ChunkMap.push, hk, if_false, ChunkMap.allBlocks, List.map_cons,
        List.flatten_cons, List.append_assoc]
      exact List.Perm.append_left bs (ih hrest)

theorem ChunkMap.mem_push (m : ChunkMap) (key : ChunkKey) (block : Block)
    (e : ChunkKey × List Block) (he : e ∈ ChunkMap.push m key block) :
    e ∈ m ∨ ∃ bs, (key, bs) ∈ m ∧ e = (key, bs ++ [block]) := by
  induction m with
  | nil => simp [ChunkMap.push] at he
  | cons e' rest ih =>
    obtain ⟨k, bs⟩ := e'
    by_cases hk : k = key
    · subst hk
      simp only [ChunkMap.push, if_true, List.mem_cons] at he
      rcases he with he | he
      · exact Or.inr ⟨bs, List.mem_cons_self _ _, he⟩
      · exact Or.inl (List.mem_cons_of_mem _ he)
    · simp only [ChunkMap.push, hk, if_false, List.mem_cons] at he
      rcases he with he | he
      · exact Or.inl (he ▸ List.mem_cons_self _ _)
      · rcases ih he with h | ⟨bs', h1, h2⟩
        · exact Or.inl (List.mem_cons_of_mem _ h)
        · exact Or.inr ⟨bs', List.mem_cons_of_mem _ h1, h2⟩

theorem ChunkMap.push_append_of_not_mem (m l : ChunkMap) (key : ChunkKey) (block : Block)
    (h : key ∉ ChunkMap.keys m) :
    ChunkMap.push (m ++ l) key block = m ++ ChunkMap.push l key block := by
  induction m with
  | nil => rfl
  | cons e rest ih =>
    obtain ⟨k, bs⟩ := e
    simp only [ChunkMap.keys, List.map_cons, List.mem_cons, not_or] at h
    have hk : ¬ k = key := fun hk => h.1 hk.symm
    have ih' := ih h.2
    simp only [List.cons_append, ChunkMap.push, hk, if_false]
    exact congrArg _ ih'

theorem addBlock_chunks_of_has (w : VoxelWorld) (x y z : Int) (type : BlockType)
    (ht : type ≠ BlockType.AIR) (h : VoxelWorld.getChunkKey x z ∈ ChunkMap.keys w.chunks) :
    (VoxelWorld.addBlock w x y z type).chunks =
      ChunkMap.push w.chunks (VoxelWorld.getChunkKey x z) (VoxelWorld.newBlock x y z type) := by
  have hhas : ChunkMap.has w.chunks (VoxelWorld.getChunkKey x z) = true :=
    (ChunkMap.has_iff_mem_keys _ _).2 h
  simp [VoxelWorld.addBlock, ht, hhas]

theorem addBlock_chunks_of_not_has (w : VoxelWorld) (x y z : Int) (type : BlockType)
    (ht : type ≠ BlockType.AIR) (h : VoxelWorld.getChunkKey x z ∉ ChunkMap.keys w.chunks) :
    (VoxelWorld.addBlock w x y z type).chunks =
      w.chunks ++ [(VoxelWorld.getChunkKey x z, [VoxelWorld.newBlock x y z type])] := by
  have hhas : ChunkMap.has w.chunks (VoxelWorld.getChunkKey x z) = false := by
    rw [Bool.eq_false_iff]
    exact fun hh => h ((ChunkMap.has_iff_mem_keys _ _).1 hh)
  simp only [VoxelWorld.addBlock, ht, if_false, hhas, Bool.not_false, if_true]
  rw [ChunkMap.set_of_not_mem _ _ _ h, ChunkMap.push_append_of_not_mem _ _ _ _ h]
  simp [ChunkMap.push]

theorem get_addBlock (w : VoxelWorld) (x y z : Int) (type : BlockType) (key : ChunkKey) :
    ChunkMap.get (VoxelWorld.addBlock w x y z type).chunks key =
      if type = BlockType.AIR then ChunkMap.get w.chunks key
      else if VoxelWorld.getChunkKey x z = key then
        some ((ChunkMap.get w.chunks key).getD [] ++ [VoxelWorld.newBlock x y z type])
      else ChunkMap.get w.chunks key := by
  by_cases ht : type = BlockType.AIR
  · simp [VoxelWorld.addBlock, ht]
  · simp only [ht, if_false]
    by_cases hk : VoxelWorld.getChunkKey x z = key
    · subst hk
      by_cases hhas : ChunkMap.has w.chunks (VoxelWorld.getChunkKey x z) = true
      · have hsome := hhas
        rw [ChunkMap.has_eq_isSome, Option.isSome_iff_exists] at hsome
        obtain ⟨bs, hbs⟩ := hsome
        simp [VoxelWorld.addBlock, ht, hhas, ChunkMap.get_push, hbs]
      · have hnone : ChunkMap.get w.chunks (VoxelWorld.getChunkKey x z) = none := by
          rw [ChunkMap.has_eq_isSome] at hhas
          simpa using hhas
        simp [VoxelWorld.addBlock, ht, hhas, ChunkMap.get_push, ChunkMap.get_set, hnone]
    · by_cases hhas : ChunkMap.has w.chunks (VoxelWorld.getChunkKey x z) = true
      · simp [VoxelWorld.addBlock, ht, hhas, ChunkMap.get_push, hk]
      · simp [VoxelWorld.addBlock, ht, hhas, ChunkMap.get_push, ChunkMap.get_set, hk]

theorem addBlock_invariant (w : VoxelWorld) (x y z : Int) (type : BlockType)
    (ht : type ≠ BlockType.AIR) (added : List Block)
    (hnodup : (ChunkMap.keys w.chunks).Nodup)
    (hperm : List.Perm (ChunkMap.allBlocks w.chunks) added)
    (hkeyed : ∀ e ∈ w.chunks, ∀ b ∈ e.2, e.1 = VoxelWorld.getChunkKey b.x b.z) :
    (ChunkMap.keys (VoxelWorld.addBlock w x y z type).chunks).Nodup ∧
    List.Perm (ChunkMap.allBlocks (VoxelWorld.addBlock w x y z type).chunks)
      (added ++ [VoxelWorld.newBlock x y z type]) ∧
    ∀ e ∈ (VoxelWorld.addBlock w x y z type).chunks, ∀ b ∈ e.2,
      e.1 = VoxelWorld.getChunkKey b.x b.z := by
  by_cases h : VoxelWorld.getChunkKey x z ∈ ChunkMap.keys w.chunks
  · rw [addBlock_chunks_of_has w x y z type ht h]
    refine ⟨by rwa [ChunkMap.keys_push], ?_, ?_⟩
    · exact (ChunkMap.allBlocks_push _ _ _ h).trans (List.Perm.append_right _ hperm)
    · intro e he b hb
      rcases ChunkMap.mem_push _ _ _ _ he with he' | ⟨bs, hbs, rfl⟩
      · exact hkeyed e he' b hb
      · rcases List.mem_append.1 hb with hb' | hb'
        · exact hkeyed _ hbs b hb'
        · rw [List.mem_singleton.1 hb']
          rfl
  · rw [addBlock_chunks_of_not_has w x y z type ht h]
    refine ⟨?_, ?_, ?_⟩
    · simp only [ChunkMap.keys, List.map_append, List.map_cons, List.map_nil]
      rw [List.nodup_append]
      refine ⟨hnodup, List.nodup_singleton _, ?_⟩
      intro k hk hk'
      rw [List.mem_singleton.1 hk'] at hk
      exact h hk
    · simp only [ChunkMap.allBlocks, List.map_append, List.map_cons, List.map_nil,
        List.flatten_append, List.flatten_cons, List.flatten_nil, List.append_nil]
      exact List.Perm.append_right _ hperm
    · intro e he b hb
      rcases List.mem_append.1 he with he' | he'
      · exact hkeyed e he' b hb
      · rw [List.mem_singleton.1 he'] at hb ⊢
        rw [List.mem_singleton.1 hb]
        rfl

theorem addBlocks_invariant (calls : List AddBlockCall)
    (hair : ∀ c ∈ calls, c.type ≠ BlockType.AIR) (w : VoxelWorld) (added : List Block)
    (hnodup : (ChunkMap.keys w.chunks).Nodup)
    (hperm : List.Perm (ChunkMap.allBlocks w.chunks) added)
    (hkeyed : ∀ e ∈ w.chunks, ∀ b ∈ e.2, e.1 = VoxelWorld.getChunkKey b.x b.z) :
    (ChunkMap.keys (VoxelWorld.addBlocks w calls).chunks).Nodup ∧
    List.Perm (ChunkMap.allBlocks (VoxelWorld.addBlocks w calls).chunks)
      (added ++ calls.map fun c => VoxelWorld.newBlock c.x c.y c.z c.type) ∧
    ∀ e ∈ (VoxelWorld.addBlocks w calls).chunks, ∀ b ∈ e.2,
      e.1 = VoxelWorld.getChunkKey b.x b.z := by
  induction calls generalizing w added with
  | nil =>
    have hw : VoxelWorld.addBlocks w [] = w := rfl
    rw [hw, List.map_nil, List.append_nil]
    exact ⟨hnodup, hperm, hkeyed⟩
  | cons c calls ih =>
    have hc := hair c (List.mem_cons_self _ _)
    obtain ⟨h1, h2, h3⟩ := addBlock_invariant w c.x c.y c.z c.type hc added hnodup hperm hkeyed
    have := ih (fun c' hc' => hair c' (List.mem_cons_of_mem _ hc')) _ _ h1 h2 h3
    have hfold : VoxelWorld.addBlocks w (c :: calls) =
        VoxelWorld.addBlocks (VoxelWorld.addBlock w c.x c.y c.z c.type) calls := rfl
    rw [hfold, List.map_cons, List.append_cons]
    exact this

theorem get_addBlocks (calls : List AddBlockCall)
    (hair : ∀ c ∈ calls, c.type ≠ BlockType.AIR) (w : VoxelWorld) (key : ChunkKey) :
    (ChunkMap.get (VoxelWorld.addBlocks w calls).chunks key).getD [] =
      (ChunkMap.get w.chunks key).getD [] ++
        (calls.map fun c => VoxelWorld.newBlock c.x c.y c.z c.type).filter
          (fun b => decide (VoxelWorld.getChunkKey b.x b.z = key)) := by
  induction calls generalizing w with
  | nil => simp [VoxelWorld.addBlocks]
  | cons c calls ih =>
    have hc := hair c (List.mem_cons_self _ _)
    have hstep := ih (fun c' hc' => hair c' (List.mem_cons_of_mem _ hc'))
      (VoxelWorld.addBlock w c.x c.y c.z c.type)
    have hfold : VoxelWorld.addBlocks w (c :: calls) =
        VoxelWorld.addBlocks (VoxelWorld.addBlock w c.x c.y c.z c.type) calls := rfl
    rw [hfold, hstep, get_addBlock]
    by_cases hk : VoxelWorld.getChunkKey c.x c.z = key
    · simp [hc, hk, VoxelWorld.newBlock]
    · simp [hc, hk, VoxelWorld.newBlock]

theorem getChunkKey_eq_floor (x z : Int) :
    VoxelWorld.getChunkKey x z = (⌊(x : ℚ) / 16⌋, ⌊(z : ℚ) / 16⌋) := by
  simp [VoxelWorld.getChunkKey, CONFIG.WORLD.CHUNK_SIZE]

theorem getChunkKey_eq_div (x z : Int) : VoxelWorld.getChunkKey x z = (x / 16, z / 16) := by
  rw [getChunkKey_eq_floor]
  have h := Rat.floor_intCast_div_natCast x 16
  have h' := Rat.floor_intCast_div_natCast z 16
  simp only [Nat.cast_ofNat] at h h'
  rw [h, h']

/-- C2: starting from the empty chunk map, after any sequence of `addBlock`
calls with non-AIR types the keys of the map are pairwise distinct, the blocks
stored over all buckets are exactly the added blocks (each once, as
multisets), every stored block lies in the bucket whose key is
`getChunkKey` of its `x` and `z`, that is `(floor (x / 16), floor (z / 16))`,
and the bucket of a key holds precisely the added blocks with that key, in the
order they were added. One `addBlock` on any world keeps every stored bucket
under its key as a prefix of the new bucket: nothing is moved or removed. -/
theorem C2_addBlock_one_bucket_per_block (calls : List AddBlockCall)
    (hair : ∀ c ∈ calls, c.type ≠ BlockType.AIR) :
    (ChunkMap.keys (VoxelWorld.addBlocks VoxelWorld.empty calls).chunks).Nodup ∧
    List.Perm (ChunkMap.allBlocks (VoxelWorld.addBlocks VoxelWorld.empty calls).chunks)
      (calls.map fun c => VoxelWorld.newBlock c.x c.y c.z c.type) ∧
    (∀ e ∈ (VoxelWorld.addBlocks VoxelWorld.empty calls).chunks, ∀ b ∈ e.2,
      e.1 = VoxelWorld.getChunkKey b.x b.z ∧ e.1 = (⌊(b.x : ℚ) / 16⌋, ⌊(b.z : ℚ) / 16⌋)) ∧
    (∀ key : ChunkKey,
      (ChunkMap.get (VoxelWorld.addBlocks VoxelWorld.empty calls).chunks key).getD [] =
        (calls.map fun c => VoxelWorld.newBlock c.x c.y c.z c.type).filter
          (fun b => decide (VoxelWorld.getChunkKey b.x b.z = key))) ∧
    (∀ (w : VoxelWorld) (x y z : Int) (type : BlockType) (key : ChunkKey) (bs : List Block),
      ChunkMap.get w.chunks key = some bs →
        ∃ extra, ChunkMap.get (VoxelWorld.addBlock w x y z type).chunks key =
          some (bs ++ extra)) := by
  obtain ⟨h1, h2, h3⟩ := addBlocks_invariant calls hair VoxelWorld.empty []
    (by simp [VoxelWorld.empty, ChunkMap.keys])
    (by simp [VoxelWorld.empty, ChunkMap.allBlocks])
    (by simp [VoxelWorld.empty])
  refine ⟨h1, by simpa using h2, ?_, ?_, ?_⟩
  · intro e he b hb
    have := h3 e he b hb
    exact ⟨this, by rw [this, getChunkKey_eq_floor]⟩
  · intro key
    have := get_addBlocks calls hair VoxelWorld.empty key
    simpa [VoxelWorld.empty, ChunkMap.get] using this
  · intro w x y z type key bs hbs
    rw [get_addBlock, hbs]
    by_cases ht : type = BlockType.AIR
    · exact ⟨[], by simp [ht]⟩
    · by_cases hk : VoxelWorld.getChunkKey x z = key
      · exact ⟨[VoxelWorld.newBlock x y z type], by simp [ht, hk]⟩
      · exact ⟨[], by simp [ht, hk]⟩

/-- Three non-AIR calls, two of them into the chunk `(0, 0)` and one into the
chunk `(-1, 1)`: the hypothesis of C2 holds and C2 applies. -/
theorem C2_addBlock_one_bucket_per_block_witness :
    (∀ c ∈ ([⟨0, 0, 0, BlockType.STONE⟩, ⟨-1, 0, 17, BlockType.GRASS⟩,
        ⟨0, 1, 0, BlockType.GRASS⟩] : List AddBlockCall), c.type ≠ BlockType.AIR) ∧
    (VoxelWorld.addBlocks VoxelWorld.empty
        [⟨0, 0, 0, BlockType.STONE⟩, ⟨-1, 0, 17, BlockType.GRASS⟩,
          ⟨0, 1, 0, BlockType.GRASS⟩]).chunks =
      [((0, 0), [⟨0, 0, 0, BlockType.STONE, true⟩, ⟨0, 1, 0, BlockType.GRASS, true⟩]),
        ((-1, 1), [⟨-1, 0, 17, BlockType.GRASS, true⟩])] ∧
    List.Perm
      (ChunkMap.allBlocks (VoxelWorld.addBlocks VoxelWorld.empty
        [⟨0, 0, 0, BlockType.STONE⟩, ⟨-1, 0, 17, BlockType.GRASS⟩,
          ⟨0, 1, 0, BlockType.GRASS⟩]).chunks)
      [⟨0, 0, 0, BlockType.STONE, true⟩, ⟨-1, 0, 17, BlockType.GRASS, true⟩,
        ⟨0, 1, 0, BlockType.GRASS, true⟩] :=
  ⟨by decide,
    by
      simp only [VoxelWorld.addBlocks, List.foldl, VoxelWorld.addBlock, getChunkKey_eq_div,
        VoxelWorld.empty, VoxelWorld.newBlock]
      decide,
    (C2_addBlock_one_bucket_per_block
      [⟨0, 0, 0, BlockType.STONE⟩, ⟨-1, 0, 17, BlockType.GRASS⟩, ⟨0, 1, 0, BlockType.GRASS⟩]
      (by decide)).2.1⟩

/-! ## Bounds of the default terrain -/

theorem terrainHeight_bounds (x z : Int) :
    1 ≤ VoxelWorld.terrainHeight x z ∧ VoxelWorld.terrainHeight x z ≤ 9 := by
  have hs1 := Real.neg_one_le_sin ((x : ℝ) * 0.1)
  have hs2 := Real.sin_le_one ((x : ℝ) * 0.1)
  have hc1 := Real.neg_one_le_cos ((z : ℝ) * 0.1)
  have hc2 := Real.cos_le_one ((z : ℝ) * 0.1)
  unfold VoxelWorld.terrainHeight
  constructor
  · rw [Int.le_floor]
    push_cast
    linarith
  · have : ⌊(5 : ℝ) + Real.sin ((x : ℝ) * 0.1) * 2 + Real.cos ((z : ℝ) * 0.1) * 2⌋ < 10 := by
      rw [Int.floor_lt]
      push_cast
      linarith
    omega

theorem terrainCalls_not_air (c : AddBlockCall) (hc : c ∈ VoxelWorld.terrainCalls) :
    c.type ≠ BlockType.AIR := by
  have h := (columnCalls_mem _ _ _ _ (terrainCalls_mem c hc).2).2.2.2.2
  rw [h]
  split_ifs <;> decide

theorem generateTerrain_blocks (b : Block) :
    b ∈ ChunkMap.allBlocks (VoxelWorld.generateTerrain VoxelWorld.empty).chunks ↔
      ∃ c ∈ VoxelWorld.terrainCalls, b = VoxelWorld.newBlock c.x c.y c.z c.type := by
  rw [generateTerrain_eq_addBlocks]
  obtain ⟨-, hperm, -⟩ := addBlocks_invariant VoxelWorld.terrainCalls terrainCalls_not_air
    VoxelWorld.empty [] (by simp [VoxelWorld.empty, ChunkMap.keys])
    (by simp [VoxelWorld.empty, ChunkMap.allBlocks]) (by simp [VoxelWorld.empty])
  rw [hperm.mem_iff]
  simp only [List.nil_append, List.mem_map]
  constructor
  · rintro ⟨c, hc, rfl⟩
    exact ⟨c, hc, rfl⟩
  · rintro ⟨c, hc, rfl⟩
    exact ⟨c, hc, rfl⟩

/-- C10: with the default configuration `generateTerrain` visits each of the
2500 integer columns with `-25 ≤ x < 25` and `-25 ≤ z < 25` once and no other;
the height `floor (5 + 2 sin (0.1 x) + 2 cos (0.1 z))`, over the reals, is at
least 1 and at most 9 for every integer column; so in the generated world
every visited column holds a GRASS block at `y = height - 1` and no block
above it, and every generated block has `0 ≤ y < CONFIG.WORLD.HEIGHT = 10`. -/
theorem C10_default_terrain_within_world_height :
    (VoxelWorld.terrainColumns.Nodup ∧ VoxelWorld.terrainColumns.length = 2500 ∧
      ∀ x z : Int, (x, z) ∈ VoxelWorld.terrainColumns ↔
        (-25 ≤ x ∧ x < 25) ∧ (-25 ≤ z ∧ z < 25)) ∧
    (∀ x z : Int,
      VoxelWorld.terrainHeight x z =
        ⌊(5 : ℝ) + 2 * Real.sin (0.1 * (x : ℝ)) + 2 * Real.cos (0.1 * (z : ℝ))⌋ ∧
      1 ≤ VoxelWorld.terrainHeight x z ∧ VoxelWorld.terrainHeight x z ≤ 9) ∧
    (∀ x z : Int, (x, z) ∈ VoxelWorld.terrainColumns →
      VoxelWorld.newBlock x (VoxelWorld.terrainHeight x z - 1) z BlockType.GRASS ∈
        ChunkMap.allBlocks (VoxelWorld.generateTerrain VoxelWorld.empty).chunks ∧
      ∀ b ∈ ChunkMap.allBlocks (VoxelWorld.generateTerrain VoxelWorld.empty).chunks,
        b.x = x → b.z = z → b.y ≤ VoxelWorld.terrainHeight x z - 1) ∧
    (∀ b ∈ ChunkMap.allBlocks (VoxelWorld.generateTerrain VoxelWorld.empty).chunks,
      0 ≤ b.y ∧ b.y < CONFIG.WORLD.HEIGHT) ∧
    CONFIG.WORLD.HEIGHT = 10 := by
  refine ⟨⟨terrainColumns_nodup, terrainColumns_length, terrainColumns_mem⟩, ?_, ?_, ?_, rfl⟩
  · intro x z
    refine ⟨?_, terrainHeight_bounds x z⟩
    unfold VoxelWorld.terrainHeight
    rw [mul_comm (x : ℝ) 0.1, mul_comm (z : ℝ) 0.1, mul_comm _ (2 : ℝ), mul_comm _ (2 : ℝ)]
  · intro x z hcell
    constructor
    · rw [generateTerrain_blocks]
      refine ⟨⟨x, VoxelWorld.terrainHeight x z - 1, z, BlockType.GRASS⟩, ?_, rfl⟩
      simp only [VoxelWorld.terrainCalls, List.mem_flatMap]
      refine ⟨(x, z), hcell, ?_⟩
      simp only [VoxelWorld.columnCalls, List.mem_map, forRange_mem]
      have := (terrainHeight_bounds x z).1
      exact ⟨VoxelWorld.terrainHeight x z - 1, ⟨by omega, by omega⟩, by simp⟩
    · intro b hb hx hz
      rw [generateTerrain_blocks] at hb
      obtain ⟨c, hc, rfl⟩ := hb
      have h := columnCalls_mem _ _ _ _ (terrainCalls_mem c hc).2
      simp only [VoxelWorld.newBlock] at hx hz ⊢
      rw [hx, hz] at h
      omega
  · intro b hb
    rw [generateTerrain_blocks] at hb
    obtain ⟨c, hc, rfl⟩ := hb
    have h := columnCalls_mem _ _ _ _ (terrainCalls_mem c hc).2
    have hb := (terrainHeight_bounds c.x c.z).2
    simp only [VoxelWorld.newBlock, CONFIG.WORLD.HEIGHT]
    omega

/-- The origin is one of the visited columns, so C10 puts a GRASS block on top
of it, at `y = 6`. -/
theorem C10_default_terrain_within_world_height_witness :
    (0, 0) ∈ VoxelWorld.terrainColumns ∧
    VoxelWorld.newBlock 0 (VoxelWorld.terrainHeight 0 0 - 1) 0 BlockType.GRASS ∈
      ChunkMap.allBlocks (VoxelWorld.generateTerrain VoxelWorld.empty).chunks :=
  ⟨(terrainColumns_mem 0 0).2 (by omega),
    (C10_default_terrain_within_world_height.2.2.1 0 0
      ((terrainColumns_mem 0 0).2 (by omega))).1⟩

/-! ## Binary64 rounding -/

theorem int_log_two_eq (r : ℚ) (e : Int) (h1 : (2 : ℚ) ^ e ≤ r) (h2 : r < (2 : ℚ) ^ (e + 1)) :
    Int.log 2 r = e := by
  have hr : 0 < r := lt_of_lt_of_le (by positivity) h1
  have ha : e ≤ Int.log 2 r :=
    (Int.zpow_le_iff_le_log (by norm_num) hr).1 (by exact_mod_cast h1)
  have hb : Int.log 2 r < e + 1 :=
    (Int.lt_zpow_iff_log_lt (by norm_num) hr).1 (by exact_mod_cast h2)
  omega

theorem roundHalfEven_of_near (q : ℚ) (n : Int) (h : |q - n| < 1 / 2) :
    roundHalfEven q = n := by
  rw [abs_lt] at h
  obtain ⟨hlo, hhi⟩ := h
  unfold roundHalfEven
  by_cases hq : (n : ℚ) ≤ q
  · have hf : ⌊q⌋ = n := by
      rw [Int.floor_eq_iff]
      constructor
      · exact hq
      · linarith
    simp only [hf]
    rw [if_pos (by linarith)]
  · have hf : ⌊q⌋ = n - 1 := by
      rw [Int.floor_eq_iff]
      push_cast
      constructor <;> linarith
    simp only [hf]
    push_cast
    rw [if_neg (by linarith), if_pos (by linarith)]
    ring

theorem roundHalfEven_of_tie (f : Int) :
    roundHalfEven ((f : ℚ) + 1 / 2) = if f % 2 = 0 then f else f + 1 := by
  have hf : ⌊(f : ℚ) + 1 / 2⌋ = f := by
    rw [Int.floor_eq_iff]
    constructor <;> linarith
  unfold roundHalfEven
  simp only [hf]
  rw [if_neg (by linarith), if_neg (by linarith)]

theorem roundBinary64_of_binade (q : ℚ) (e : Int) (h1 : (2 : ℚ) ^ e ≤ |q|)
    (h2 : |q| < (2 : ℚ) ^ (e + 1)) (he : -1022 ≤ e) :
    roundBinary64 q = (roundHalfEven (q / 2 ^ (e - 52)) : ℚ) * 2 ^ (e - 52) := by
  have hu : ulpExponent q = e - 52 := by
    unfold ulpExponent
    rw [int_log_two_eq |q| e h1 h2, max_eq_left he]
  unfold roundBinary64
  rw [hu]

theorem roundBinary64_of_near (q : ℚ) (e n : Int) (h1 : (2 : ℚ) ^ e ≤ |q|)
    (h2 : |q| < (2 : ℚ) ^ (e + 1)) (he : -1022 ≤ e)
    (hn : |q / 2 ^ (e - 52) - n| < 1 / 2) :
    roundBinary64 q = (n : ℚ) * 2 ^ (e - 52) := by
  rw [roundBinary64_of_binade q e h1 h2 he, roundHalfEven_of_near _ n hn]

theorem roundBinary64_zero : roundBinary64 0 = 0 := by
  simp [roundBinary64, roundHalfEven]

theorem sqrtBinary64_of_square (x : ℚ) (e : Int) (s : Nat) (h1 : (2 : ℚ) ^ e ≤ x)
    (h2 : x < (2 : ℚ) ^ (e + 1))
    (hs : x / (2 ^ (e / 2 - 52) * 2 ^ (e / 2 - 52)) = (s : ℚ) * s) :
    sqrtBinary64 x = (s : ℚ) * 2 ^ (e / 2 - 52) := by
  unfold sqrtBinary64
  simp only [int_log_two_eq x e h1 h2, hs]
  have hfloor : ⌊(s : ℚ) * s⌋₊ = s * s := by
    rw [← Nat.cast_mul, Nat.floor_natCast]
  rw [hfloor, Nat.sqrt_eq]
  have hpos : (0 : ℚ) ≤ s := Nat.cast_nonneg s
  rw [if_pos (by linarith)]

theorem sqrtBinary64_zero : sqrtBinary64 0 = 0 := by
  simp [sqrtBinary64]

theorem roundBinary64_one_tenth :
    roundBinary64 (1 / 10) = 3602879701896397 / 36028797018963968 := by
  rw [roundBinary64_of_near _ (-4) 7205759403792794 (by norm_num [abs_of_pos])
    (by norm_num [abs_of_pos]) (by norm_num) (by norm_num [abs_lt])]
  norm_num

theorem sqrtBinary64_two :
    sqrtBinary64 2 = 6369051672525773 / 4503599627370496 := by
  unfold sqrtBinary64
  have hlog : Int.log 2 (2 : ℚ) = 1 := int_log_two_eq 2 1 (by norm_num) (by norm_num)
  have hn : (2 : ℚ) / (2 ^ ((1 : Int) / 2 - 52) * 2 ^ ((1 : Int) / 2 - 52)) =
      ((40564819207303340847894502572032 : Nat) : ℚ) := by norm_num
  simp only [hlog, hn, Nat.floor_natCast]
  have hsqrt : Nat.sqrt 40564819207303340847894502572032 = 6369051672525772 := by
    symm
    rw [Nat.eq_sqrt]
    constructor <;> norm_num
  rw [hsqrt]
  norm_num

theorem roundBinary64_4 : roundBinary64 4 = 4 := by
  rw [roundBinary64_of_near _ 2 (4 * 2 ^ 50) (by norm_num) (by norm_num) (by norm_num)
    (by norm_num)]
  norm_num

theorem roundBinary64_5 : roundBinary64 5 = 5 := by
  rw [roundBinary64_of_near _ 2 (5 * 2 ^ 50) (by norm_num) (by norm_num) (by norm_num)
    (by norm_num)]
  norm_num

theorem roundBinary64_16 : roundBinary64 16 = 16 := by
  rw [roundBinary64_of_near _ 4 (16 * 2 ^ 48) (by norm_num) (by norm_num) (by norm_num)
    (by norm_num)]
  norm_num

theorem roundBinary64_64 : roundBinary64 64 = 64 := by
  rw [roundBinary64_of_near _ 6 (64 * 2 ^ 46) (by norm_num) (by norm_num) (by norm_num)
    (by norm_num)]
  norm_num

theorem roundBinary64_80 : roundBinary64 80 = 80 := by
  rw [roundBinary64_of_near _ 6 (80 * 2 ^ 46) (by norm_num) (by norm_num) (by norm_num)
    (by norm_num)]
  norm_num

theorem roundBinary64_4096 : roundBinary64 4096 = 4096 := by
  rw [roundBinary64_of_near _ 12 (4096 * 2 ^ 40) (by norm_num) (by norm_num) (by norm_num)
    (by norm_num)]
  norm_num

theorem roundBinary64_6400 : roundBinary64 6400 = 6400 := by
  rw [roundBinary64_of_near _ 12 (6400 * 2 ^ 40) (by norm_num) (by norm_num) (by norm_num)
    (by norm_num)]
  norm_num

theorem roundBinary64_two_pow_neg_60 : roundBinary64 (2 ^ (-60 : ℤ)) = 2 ^ (-60 : ℤ) := by
  rw [roundBinary64_of_near _ (-60) (2 ^ 52) (by norm_num [abs_of_pos])
    (by norm_num [abs_of_pos]) (by norm_num) (by norm_num)]
  norm_num

theorem roundBinary64_80_sub : roundBinary64 (80 - 2 ^ (-60 : ℤ)) = 80 := by
  rw [roundBinary64_of_near _ 6 (80 * 2 ^ 46) (by norm_num [abs_of_pos])
    (by norm_num [abs_of_pos]) (by norm_num) (by norm_num [abs_lt])]
  norm_num

theorem roundBinary64_80_tie : roundBinary64 (80 - 2 ^ (-47 : ℤ)) = 80 := by
  rw [roundBinary64_of_binade _ 6 (by norm_num [abs_of_pos]) (by norm_num [abs_of_pos])
    (by norm_num)]
  have hq : ((80 : ℚ) - 2 ^ (-47 : ℤ)) / 2 ^ ((6 : Int) - 52) =
      ((5629499534213119 : Int) : ℚ) + 1 / 2 := by norm_num
  rw [hq, roundHalfEven_of_tie]
  norm_num

theorem sqrtBinary64_4096 : sqrtBinary64 4096 = 64 := by
  rw [sqrtBinary64_of_square 4096 12 (64 * 2 ^ 46) (by norm_num) (by norm_num) (by norm_num)]
  norm_num

theorem sqrtBinary64_6400 : sqrtBinary64 6400 = 80 := by
  rw [sqrtBinary64_of_square 6400 12 (80 * 2 ^ 46) (by norm_num) (by norm_num) (by norm_num)]
  norm_num

/-! ## Visibility -/

theorem optimizeRendering_chunks {α : Type} (A : NumberArith α) (w : VoxelWorld)
    (p : Position α) :
    (VoxelWorld.optimizeRendering A w p).chunks =
      w.chunks.map fun e =>
        (e.1, e.2.map fun b =>
          { b with
            visible :=
              A.lt
                (A.sqrt
                  (A.add (A.powTwo (A.sub (A.mul (A.ofInt e.1.1) (A.ofInt 16)) p.x))
                    (A.powTwo (A.sub (A.mul (A.ofInt e.1.2) (A.ofInt 16)) p.z))))
                (A.mul (A.ofInt 5) (A.ofInt 16)) }) :=
  rfl

theorem optimizeRendering_mem {α : Type} (A : NumberArith α) (w : VoxelWorld)
    (p : Position α) (e : ChunkKey × List Block)
    (he : e ∈ (VoxelWorld.optimizeRendering A w p).chunks) (b : Block) (hb : b ∈ e.2) :
    b.visible =
      A.lt
        (A.sqrt
          (A.add (A.powTwo (A.sub (A.mul (A.ofInt e.1.1) (A.ofInt 16)) p.x))
            (A.powTwo (A.sub (A.mul (A.ofInt e.1.2) (A.ofInt 16)) p.z))))
        (A.mul (A.ofInt 5) (A.ofInt 16)) := by
  rw [optimizeRendering_chunks, List.mem_map] at he
  obtain ⟨e0, -, rfl⟩ := he
  simp only [List.mem_map] at hb
  obtain ⟨b0, -, rfl⟩ := hb
  rfl

theorem optimizeRendering_idem {α : Type} (A : NumberArith α) (w : VoxelWorld)
    (p : Position α) :
    VoxelWorld.optimizeRendering A (VoxelWorld.optimizeRendering A w p) p =
      VoxelWorld.optimizeRendering A w p := by
  have h : (VoxelWorld.optimizeRendering A (VoxelWorld.optimizeRendering A w p) p).chunks =
      (VoxelWorld.optimizeRendering A w p).chunks := by
    rw [optimizeRendering_chunks A (VoxelWorld.optimizeRendering A w p),
      optimizeRendering_chunks A w p]
    simp [List.map_map, Function.comp_def]
  cases hw : VoxelWorld.optimizeRendering A (VoxelWorld.optimizeRendering A w p) p
  cases hw' : VoxelWorld.optimizeRendering A w p
  rw [hw, hw'] at h
  simpa using h

theorem binary64_renderDistance :
    binary64.mul (binary64.ofInt 5) (binary64.ofInt 16) = 80 := by
  simp only [binary64, Int.cast_ofNat, roundBinary64_5, roundBinary64_16]
  norm_num [roundBinary64_80]

/-- C3, amended: for every chunk map and player position `p`, in any number
arithmetic and so in that of JavaScript, `optimizeRendering` keeps the buckets
and their blocks and only rewrites the `visible` flags: after the call a block
of the bucket with key `(cx, cz)` is visible if and only if `d < r`, where `d`
is the distance as the code computes it,
`Math.sqrt(Math.pow(cx * 16 - p.x, 2) + Math.pow(cz * 16 - p.z, 2))`, every
operation being the rounded one of the arithmetic, and `r` is the computed
`RENDER_DISTANCE * CHUNK_SIZE`, which is 80 in binary64; this holds whatever
the flag was before. All blocks of one bucket carry the same flag, a bucket
whose computed distance equals `r` is not visible, and a second call with the
same `p` changes nothing. -/
theorem C3_optimizeRendering_visible_iff_computed_distance {α : Type} (A : NumberArith α)
    (w : VoxelWorld) (p : Position α) :
    binary64.mul (binary64.ofInt CONFIG.WORLD.RENDER_DISTANCE)
      (binary64.ofInt CONFIG.WORLD.CHUNK_SIZE) = 80 ∧
    (VoxelWorld.optimizeRendering A w p).chunks =
      w.chunks.map (fun e =>
        (e.1, e.2.map fun b =>
          { b with
            visible :=
              A.lt
                (A.sqrt
                  (A.add (A.powTwo (A.sub (A.mul (A.ofInt e.1.1) (A.ofInt 16)) p.x))
                    (A.powTwo (A.sub (A.mul (A.ofInt e.1.2) (A.ofInt 16)) p.z))))
                (A.mul (A.ofInt 5) (A.ofInt 16)) })) ∧
    (∀ e ∈ (VoxelWorld.optimizeRendering A w p).chunks, ∀ b ∈ e.2,
      (b.visible = true ↔
        A.lt
          (A.sqrt
            (A.add (A.powTwo (A.sub (A.mul (A.ofInt e.1.1) (A.ofInt 16)) p.x))
              (A.powTwo (A.sub (A.mul (A.ofInt e.1.2) (A.ofInt 16)) p.z))))
          (A.mul (A.ofInt 5) (A.ofInt 16)) = true)) ∧
    (∀ e ∈ (VoxelWorld.optimizeRendering A w p).chunks, ∀ b ∈ e.2, ∀ b' ∈ e.2,
      b.visible = b'.visible) ∧
    (∀ e ∈ (VoxelWorld.optimizeRendering A w p).chunks,
      A.sqrt
          (A.add (A.powTwo (A.sub (A.mul (A.ofInt e.1.1) (A.ofInt 16)) p.x))
            (A.powTwo (A.sub (A.mul (A.ofInt e.1.2) (A.ofInt 16)) p.z))) =
        A.mul (A.ofInt 5) (A.ofInt 16) →
      ∀ b ∈ e.2, b.visible = false) ∧
    VoxelWorld.optimizeRendering A (VoxelWorld.optimizeRendering A w p) p =
      VoxelWorld.optimizeRendering A w p := by
  refine ⟨binary64_renderDistance, optimizeRendering_chunks A w p, ?_, ?_, ?_,
    optimizeRendering_idem A w p⟩
  · intro e he b hb
    rw [optimizeRendering_mem A w p e he b hb]
  · intro e he b hb b' hb'
    rw [optimizeRendering_mem A w p e he b hb, optimizeRendering_mem A w p e he b' hb']
  · intro e he hdist b hb
    rw [optimizeRendering_mem A w p e he b hb, hdist]
    exact A.lt_irrefl _

/-- In binary64, a player at the origin and two one-block buckets, a hidden
block in the chunk `(4, 0)` at computed distance 64 and a shown block in the
chunk `(5, 0)` at computed distance exactly 80: the first becomes visible, the
second invisible, as the amended C3 says. -/
theorem C3_optimizeRendering_visible_iff_computed_distance_witness :
    (VoxelWorld.optimizeRendering binary64
      { chunks := [((4, 0), [⟨64, 0, 0, BlockType.GRASS, false⟩]),
          ((5, 0), [⟨80, 0, 0, BlockType.GRASS, true⟩])] }
      { x := 0, y := 10, z := 0 }).chunks =
      [((4, 0), [⟨64, 0, 0, BlockType.GRASS, true⟩]),
        ((5, 0), [⟨80, 0, 0, BlockType.GRASS, false⟩])] := by
  rw [(C3_optimizeRendering_visible_iff_computed_distance binary64 _ _).2.1]
  simp only [List.map_cons, List.map_nil, binary64, Int.cast_ofNat, Int.cast_zero,
    roundBinary64_4, roundBinary64_5, roundBinary64_16, roundBinary64_zero, zero_mul,
    sub_zero, mul_zero, add_zero]
  norm_num [roundBinary64_64, roundBinary64_80, roundBinary64_4096, roundBinary64_6400,
    roundBinary64_zero, sqrtBinary64_4096, sqrtBinary64_6400]

/-- C3 as stated fails on the code: with the player at `x = 2 ^ (-60)`,
`z = 0` (binary64 numbers) and a block added at `x = 80`, hence in the bucket
`(5, 0)`, the exact distance `80 - 2 ^ (-60)` is below 80, yet the code
computes `80 - 2 ^ (-60)` as 80, finds `80 < 80` false and leaves the block
invisible. -/
theorem C3_exact_distance_counterexample :
    roundBinary64 (2 ^ (-60 : ℤ)) = 2 ^ (-60 : ℤ) ∧
    (VoxelWorld.addBlocks VoxelWorld.empty [⟨80, 0, 0, BlockType.GRASS⟩]).chunks =
      [((5, 0), [⟨80, 0, 0, BlockType.GRASS, true⟩])] ∧
    (VoxelWorld.optimizeRendering binary64
      { chunks := [((5, 0), [⟨80, 0, 0, BlockType.GRASS, true⟩])] }
      { x := 2 ^ (-60 : ℤ), y := 10, z := 0 }).chunks =
      [((5, 0), [⟨80, 0, 0, BlockType.GRASS, false⟩])] ∧
    Real.sqrt ((16 * ((5 : Int) : ℝ) - 2 ^ (-60 : ℤ)) ^ 2 + (16 * ((0 : Int) : ℝ) - 0) ^ 2) <
      80 ∧
    ¬ (∀ e ∈ (VoxelWorld.optimizeRendering binary64
          { chunks := [((5, 0), [⟨80, 0, 0, BlockType.GRASS, true⟩])] }
          { x := 2 ^ (-60 : ℤ), y := 10, z := 0 }).chunks, ∀ b ∈ e.2,
        (b.visible = true ↔
          Real.sqrt ((16 * (e.1.1 : ℝ) - 2 ^ (-60 : ℤ)) ^ 2 + (16 * (e.1.2 : ℝ) - 0) ^ 2) <
            80)) := by
  have hchunks : (VoxelWorld.optimizeRendering binary64
      { chunks := [((5, 0), [⟨80, 0, 0, BlockType.GRASS, true⟩])] }
      { x := 2 ^ (-60 : ℤ), y := 10, z := 0 }).chunks =
      [((5, 0), [⟨80, 0, 0, BlockType.GRASS, false⟩])] := by
    have h516 : (5 : ℚ) * 16 = 80 := by norm_num
    have h8080 : (80 : ℚ) * 80 = 6400 := by norm_num
    rw [optimizeRendering_chunks]
    simp only [List.map_cons, List.map_nil, binary64, Int.cast_ofNat, Int.cast_zero,
      roundBinary64_5, roundBinary64_16, roundBinary64_zero, zero_mul, sub_zero, h516,
      roundBinary64_80, roundBinary64_80_sub, h8080, roundBinary64_6400, mul_zero, add_zero,
      sqrtBinary64_6400, lt_self_iff_false, decide_False]
  have hexact : Real.sqrt
      ((16 * ((5 : Int) : ℝ) - 2 ^ (-60 : ℤ)) ^ 2 + (16 * ((0 : Int) : ℝ) - 0) ^ 2) < 80 := by
    have hsq : (16 * ((5 : Int) : ℝ) - 2 ^ (-60 : ℤ)) ^ 2 + (16 * ((0 : Int) : ℝ) - 0) ^ 2 =
        (80 - 2 ^ (-60 : ℤ)) ^ 2 := by norm_num
    rw [hsq, Real.sqrt_sq (by norm_num)]
    norm_num
  refine ⟨roundBinary64_two_pow_neg_60, ?_, hchunks, hexact, ?_⟩
  · simp only [VoxelWorld.addBlocks, List.foldl, VoxelWorld.addBlock, getChunkKey_eq_div,
      VoxelWorld.empty, VoxelWorld.newBlock]
    decide
  · intro hall
    rw [hchunks] at hall
    have h := (hall ((5, 0), [⟨80, 0, 0, BlockType.GRASS, false⟩]) (by simp)
      ⟨80, 0, 0, BlockType.GRASS, false⟩ (by simp)).2 hexact
    simp at h

theorem roundBinary64_1 : roundBinary64 1 = 1 := by
  rw [roundBinary64_of_near _ 0 (2 ^ 52) (by norm_num) (by norm_num) (by norm_num)
    (by norm_num)]
  norm_num

theorem roundBinary64_near_neg_64 :
    roundBinary64 (-(64 - 2 ^ (-47 : ℤ))) = -(64 - 2 ^ (-47 : ℤ)) := by
  rw [roundBinary64_of_near _ 5 (-(2 ^ 53 - 1)) (by norm_num [abs_of_pos])
    (by norm_num [abs_of_pos]) (by norm_num) (by norm_num)]
  norm_num

theorem generateTerrain_bucket_one_zero :
    ∃ e ∈ (VoxelWorld.generateTerrain VoxelWorld.empty).chunks, e.1 = (1, 0) ∧ e.2 ≠ [] := by
  have hmem := (generateTerrain_blocks
    (VoxelWorld.newBlock 16 (VoxelWorld.terrainHeight 16 0 - 1) 0 BlockType.GRASS)).2
    ⟨⟨16, VoxelWorld.terrainHeight 16 0 - 1, 0, BlockType.GRASS⟩, by
      simp only [VoxelWorld.terrainCalls, List.mem_flatMap]
      refine ⟨(16, 0), (terrainColumns_mem 16 0).2 (by omega), ?_⟩
      simp only [VoxelWorld.columnCalls, List.mem_map, forRange_mem]
      have := (terrainHeight_bounds 16 0).1
      exact ⟨VoxelWorld.terrainHeight 16 0 - 1, ⟨by omega, by omega⟩, by simp⟩, rfl⟩
  obtain ⟨-, -, hkeyed⟩ := addBlocks_invariant VoxelWorld.terrainCalls terrainCalls_not_air
    VoxelWorld.empty [] (by simp [VoxelWorld.empty, ChunkMap.keys])
    (by simp [VoxelWorld.empty, ChunkMap.allBlocks]) (by simp [VoxelWorld.empty])
  rw [← generateTerrain_eq_addBlocks] at hkeyed
  simp only [ChunkMap.allBlocks, List.mem_flatten, List.mem_map] at hmem
  obtain ⟨bs, ⟨e, he, rfl⟩, hb⟩ := hmem
  refine ⟨e, he, ?_, List.ne_nil_of_mem hb⟩
  rw [hkeyed e he _ hb, getChunkKey_eq_div]
  rfl

/-- The same divergence in the world `generateTerrain` builds: with the player
at `x = -(64 - 2 ^ (-47))`, printed `-63.99999999999999`, and `z = 0`, the
bucket `(1, 0)` is at exact distance `80 - 2 ^ (-47)`, below 80; the code
rounds `16 - x` to 80 (a tie, resolved to the even significand) and leaves
every block of the bucket invisible. -/
theorem optimizeRendering_default_world_rounding :
    roundBinary64 (-(64 - 2 ^ (-47 : ℤ))) = -(64 - 2 ^ (-47 : ℤ)) ∧
    (∃ e ∈ (VoxelWorld.optimizeRendering binary64
        (VoxelWorld.generateTerrain VoxelWorld.empty)
        { x := -(64 - 2 ^ (-47 : ℤ)), y := 10, z := 0 }).chunks,
      e.1 = (1, 0) ∧ e.2 ≠ [] ∧ ∀ b ∈ e.2, b.visible = false) ∧
    Real.sqrt
      ((16 * ((1 : Int) : ℝ) - -(64 - 2 ^ (-47 : ℤ))) ^ 2 + (16 * ((0 : Int) : ℝ) - 0) ^ 2) <
      80 := by
  refine ⟨roundBinary64_near_neg_64, ?_, ?_⟩
  · obtain ⟨e, he, hkey, hne⟩ := generateTerrain_bucket_one_zero
    have h116 : (1 : ℚ) * 16 = 16 := by norm_num
    have hsub : (16 : ℚ) - -(64 - 2 ^ (-47 : ℤ)) = 80 - 2 ^ (-47 : ℤ) := by ring
    have h8080 : (80 : ℚ) * 80 = 6400 := by norm_num
    rw [optimizeRendering_chunks]
    refine ⟨_, List.mem_map.2 ⟨e, he, rfl⟩, hkey, ?_, ?_⟩
    · simpa using hne
    · intro b hb
      simp only [List.mem_map] at hb
      obtain ⟨b0, -, rfl⟩ := hb
      simp only [hkey, binary64, Int.cast_ofNat, Int.cast_zero, Int.cast_one,
        roundBinary64_1, roundBinary64_16, roundBinary64_zero, zero_mul, sub_zero, h116,
        hsub, roundBinary64_80_tie, h8080, roundBinary64_6400, mul_zero, add_zero,
        sqrtBinary64_6400, roundBinary64_5, roundBinary64_80, lt_self_iff_false,
        decide_False]
      norm_num [roundBinary64_80]
  · have hsq : (16 * ((1 : Int) : ℝ) - -(64 - 2 ^ (-47 : ℤ))) ^ 2 +
        (16 * ((0 : Int) : ℝ) - 0) ^ 2 = (80 - 2 ^ (-47 : ℤ)) ^ 2 := by norm_num
    rw [hsq, Real.sqrt_sq (by norm_num)]
    norm_num

/-! ## Player: gravity, ground collision and jumping -/

theorem update_vertical (p : PlayerController) (dt : ℝ) :
    (p.position.y + (p.velocity.y + CONFIG.PLAYER.GRAVITY) < 8 →
      (p.update dt).position.y = 8 ∧ (p.update dt).velocity.y = 0 ∧
      (p.update dt).canJump = true ∧ (p.update dt).isJumping = false) ∧
    (¬ p.position.y + (p.velocity.y + CONFIG.PLAYER.GRAVITY) < 8 →
      (p.update dt).position.y = p.position.y + (p.velocity.y + CONFIG.PLAYER.GRAVITY) ∧
      (p.update dt).velocity.y = p.velocity.y + CONFIG.PLAYER.GRAVITY ∧
      (p.update dt).canJump = p.canJump ∧ (p.update dt).isJumping = p.isJumping) := by
  unfold PlayerController.update
  by_cases hm : Vector3.length p.moveVector > 0 <;>
    by_cases h : p.position.y + (p.velocity.y + CONFIG.PLAYER.GRAVITY) < 8 <;>
    simp [hm, h, Vector3.add]

theorem update_position_xz (p : PlayerController) (dt : ℝ) :
    (p.update dt).position.x = p.position.x + (p.update dt).velocity.x ∧
    (p.update dt).position.z = p.position.z + (p.update dt).velocity.z := by
  unfold PlayerController.update
  by_cases hm : Vector3.length p.moveVector > 0 <;>
    by_cases h : p.position.y + (p.velocity.y + CONFIG.PLAYER.GRAVITY) < 8 <;>
    simp [hm, h, Vector3.add]

theorem update_inputs (p : PlayerController) (dt : ℝ) :
    (p.update dt).keys = p.keys ∧ (p.update dt).joystick = p.joystick ∧
    (p.update dt).rotation = p.rotation ∧ (p.update dt).touch = p.touch ∧
    (p.update dt).touchStartX = p.touchStartX ∧ (p.update dt).touchStartY = p.touchStartY := by
  unfold PlayerController.update
  simp only
  split_ifs <;> simp

theorem update_ground (p : PlayerController) (dt : ℝ) : 8 ≤ (p.update dt).position.y := by
  by_cases h : p.position.y + (p.velocity.y + CONFIG.PLAYER.GRAVITY) < 8
  · rw [((update_vertical p dt).1 h).1]
  · rw [((update_vertical p dt).2 h).1]
    exact not_lt.1 h

/-- C4: `update` adds GRAVITY to `velocity.y` and then the velocity to the
position. When the new `position.y` is below 8 it ends with `position.y = 8`,
`velocity.y = 0`, `canJump = true` and `isJumping = false`; otherwise
`position.y` and `velocity.y` keep the values just computed and `canJump`,
`isJumping` are unchanged. The horizontal position moves by the new horizontal
velocity, and `position.y ≥ 8` after every update. -/
theorem C4_update_gravity_and_ground_clamp (p : PlayerController) (dt : ℝ) :
    (p.position.y + (p.velocity.y + CONFIG.PLAYER.GRAVITY) < 8 →
      (p.update dt).position.y = 8 ∧ (p.update dt).velocity.y = 0 ∧
      (p.update dt).canJump = true ∧ (p.update dt).isJumping = false) ∧
    (¬ p.position.y + (p.velocity.y + CONFIG.PLAYER.GRAVITY) < 8 →
      (p.update dt).position.y = p.position.y + (p.velocity.y + CONFIG.PLAYER.GRAVITY) ∧
      (p.update dt).velocity.y = p.velocity.y + CONFIG.PLAYER.GRAVITY ∧
      (p.update dt).canJump = p.canJump ∧ (p.update dt).isJumping = p.isJumping) ∧
    (p.update dt).position.x = p.position.x + (p.update dt).velocity.x ∧
    (p.update dt).position.z = p.position.z + (p.update dt).velocity.z ∧
    8 ≤ (p.update dt).position.y :=
  ⟨(update_vertical p dt).1, (update_vertical p dt).2, (update_position_xz p dt).1,
    (update_position_xz p dt).2, update_ground p dt⟩

/-- The first frame after construction (height 10, at rest) falls freely to
`y = 9.99` with `velocity.y = -0.01`; a player standing on the ground plane
(`y = 8`, at rest) is clamped back to it. Both are instances of C4. -/
theorem C4_update_gravity_and_ground_clamp_witness :
    ((PlayerController.initial.update 0).position.y = 9.99 ∧
      (PlayerController.initial.update 0).velocity.y = -0.01 ∧
      (PlayerController.initial.update 0).canJump = true ∧
      (PlayerController.initial.update 0).isJumping = false) ∧
    (({ PlayerController.initial with position := { x := 0, y := 8, z := 0 } } :
        PlayerController).update 0).position.y = 8 ∧
    (({ PlayerController.initial with position := { x := 0, y := 8, z := 0 } } :
        PlayerController).update 0).velocity.y = 0 := by
  have h1 := (C4_update_gravity_and_ground_clamp PlayerController.initial 0).2.1
    (by norm_num [PlayerController.initial, CONFIG.PLAYER.GRAVITY])
  have h2 := (C4_update_gravity_and_ground_clamp
    ({ PlayerController.initial with position := { x := 0, y := 8, z := 0 } } :
      PlayerController) 0).1
    (by norm_num [PlayerController.initial, CONFIG.PLAYER.GRAVITY])
  refine ⟨⟨?_, ?_, ?_, ?_⟩, h2.1, h2.2.1⟩
  · rw [h1.1]
    norm_num [PlayerController.initial, CONFIG.PLAYER.GRAVITY]
  · rw [h1.2.1]
    norm_num [PlayerController.initial, CONFIG.PLAYER.GRAVITY]
  · rw [h1.2.2.1]
    rfl
  · rw [h1.2.2.2]
    rfl

/-- C5: when `canJump && !isJumping` holds, `jump` sets `velocity.y` to
JUMP_FORCE, `isJumping` to true and `canJump` to false; otherwise it changes
nothing. In both cases the position, `velocity.x`, `velocity.z` and every
other field are unchanged, and a second `jump` right after the first is a
no-op. -/
theorem C5_jump_guarded_and_idempotent (p : PlayerController) :
    (p.canJump = true ∧ p.isJumping = false →
      p.jump.velocity.y = CONFIG.PLAYER.JUMP_FORCE ∧ p.jump.isJumping = true ∧
      p.jump.canJump = false) ∧
    (¬ (p.canJump = true ∧ p.isJumping = false) → p.jump = p) ∧
    (p.jump.position = p.position ∧ p.jump.velocity.x = p.velocity.x ∧
      p.jump.velocity.z = p.velocity.z) ∧
    (p.jump.rotation = p.rotation ∧ p.jump.keys = p.keys ∧ p.jump.joystick = p.joystick ∧
      p.jump.touch = p.touch ∧ p.jump.touchStartX = p.touchStartX ∧
      p.jump.touchStartY = p.touchStartY) ∧
    p.jump.jump = p.jump := by
  unfold PlayerController.jump
  by_cases hc : p.canJump = true <;> by_cases hj : p.isJumping = true <;> simp [hc, hj]

/-- The freshly constructed controller may jump: C5 gives the jump its force,
and the state after two jumps is the state after one. -/
theorem C5_jump_guarded_and_idempotent_witness :
    (PlayerController.initial.canJump = true ∧ PlayerController.initial.isJumping = false) ∧
    PlayerController.initial.jump.velocity.y = 0.2 ∧
    PlayerController.initial.jump.isJumping = true ∧
    PlayerController.initial.jump.canJump = false ∧
    PlayerController.initial.jump.jump = PlayerController.initial.jump := by
  have h := (C5_jump_guarded_and_idempotent PlayerController.initial).1 ⟨rfl, rfl⟩
  refine ⟨⟨rfl, rfl⟩, ?_, h.2.1, h.2.2,
    (C5_jump_guarded_and_idempotent PlayerController.initial).2.2.2.2⟩
  rw [h.1]
  rfl

/-! ## Player: friction -/

theorem moveVector_idle (p : PlayerController)
    (hW : p.keys "KeyW" = false) (hS : p.keys "KeyS" = false)
    (hA : p.keys "KeyA" = false) (hD : p.keys "KeyD" = false)
    (hjx : p.joystick.x = 0) (hjy : p.joystick.y = 0) :
    p.moveVector = { x := 0, y := 0, z := 0 } := by
  simp [PlayerController.moveVector, hW, hS, hA, hD, hjx, hjy]

theorem update_idle (p : PlayerController) (dt : ℝ)
    (hW : p.keys "KeyW" = false) (hS : p.keys "KeyS" = false)
    (hA : p.keys "KeyA" = false) (hD : p.keys "KeyD" = false)
    (hjx : p.joystick.x = 0) (hjy : p.joystick.y = 0) :
    (p.update dt).velocity.x = p.velocity.x * 0.9 ∧
    (p.update dt).velocity.z = p.velocity.z * 0.9 := by
  have hm := moveVector_idle p hW hS hA hD hjx hjy
  have hlen : ¬ Vector3.length p.moveVector > 0 := by
    rw [hm]
    simp [Vector3.length]
  unfold PlayerController.update
  by_cases h : p.position.y + (p.velocity.y + CONFIG.PLAYER.GRAVITY) < 8 <;>
    simp [hlen, h, Vector3.add]

theorem updates_cons (p : PlayerController) (dt : ℝ) (dts : List ℝ) :
    p.updates (dt :: dts) = (p.update dt).updates dts := rfl

theorem updates_concat (p : PlayerController) (dts : List ℝ) (dt : ℝ) :
    p.updates (dts ++ [dt]) = (p.updates dts).update dt := by
  simp [PlayerController.updates, List.foldl_append]

theorem updates_idle (dts : List ℝ) (p : PlayerController)
    (hW : p.keys "KeyW" = false) (hS : p.keys "KeyS" = false)
    (hA : p.keys "KeyA" = false) (hD : p.keys "KeyD" = false)
    (hjx : p.joystick.x = 0) (hjy : p.joystick.y = 0) :
    (p.updates dts).velocity.x = p.velocity.x * 0.9 ^ dts.length ∧
    (p.updates dts).velocity.z = p.velocity.z * 0.9 ^ dts.length := by
  induction dts generalizing p with
  | nil => simp [PlayerController.updates]
  | cons dt dts ih =>
    obtain ⟨hk, hj, -⟩ := update_inputs p dt
    obtain ⟨hx, hz⟩ := update_idle p dt hW hS hA hD hjx hjy
    have := ih (p.update dt) (by rw [hk, hW]) (by rw [hk, hS]) (by rw [hk, hA])
      (by rw [hk, hD]) (by rw [hj, hjx]) (by rw [hj, hjy])
    rw [updates_cons, this.1, this.2, hx, hz, List.length_cons, pow_succ]
    constructor <;> ring

/-- C6: with none of the keys W, S, A, D held and the joystick at `(0, 0)`,
after `n` calls of `update` (whatever their `deltaTime`) the horizontal
velocity is `(vx * 0.9 ^ n, vz * 0.9 ^ n)`; in exact arithmetic a nonzero
component never becomes zero. -/
theorem C6_friction_exponential_decay (p : PlayerController)
    (hW : p.keys "KeyW" = false) (hS : p.keys "KeyS" = false)
    (hA : p.keys "KeyA" = false) (hD : p.keys "KeyD" = false)
    (hjx : p.joystick.x = 0) (hjy : p.joystick.y = 0) (deltaTimes : List ℝ) :
    (p.updates deltaTimes).velocity.x = p.velocity.x * 0.9 ^ deltaTimes.length ∧
    (p.updates deltaTimes).velocity.z = p.velocity.z * 0.9 ^ deltaTimes.length ∧
    (p.velocity.x ≠ 0 → (p.updates deltaTimes).velocity.x ≠ 0) ∧
    (p.velocity.z ≠ 0 → (p.updates deltaTimes).velocity.z ≠ 0) := by
  obtain ⟨hx, hz⟩ := updates_idle deltaTimes p hW hS hA hD hjx hjy
  have hpow : (0.9 : ℝ) ^ deltaTimes.length ≠ 0 := pow_ne_zero _ (by norm_num)
  refine ⟨hx, hz, ?_, ?_⟩
  · intro h
    rw [hx]
    exact mul_ne_zero h hpow
  · intro h
    rw [hz]
    exact mul_ne_zero h hpow

/-- A controller with no input and horizontal velocity `(1, -2)`: after two
frames C6 gives `(0.81, -1.62)`. -/
theorem C6_friction_exponential_decay_witness :
    (({ PlayerController.initial with velocity := { x := 1, y := 0, z := -2 } } :
        PlayerController).updates [0, 0]).velocity.x = 0.81 ∧
    (({ PlayerController.initial with velocity := { x := 1, y := 0, z := -2 } } :
        PlayerController).updates [0, 0]).velocity.z = -1.62 := by
  have h := C6_friction_exponential_decay
    ({ PlayerController.initial with velocity := { x := 1, y := 0, z := -2 } } :
      PlayerController) rfl rfl rfl rfl rfl rfl [0, 0]
  refine ⟨?_, ?_⟩
  · rw [h.1]
    norm_num
  · rw [h.2.1]
    norm_num

/-! ## Player: the fall from height 20 -/

theorem fall_closed_form (p : PlayerController) (hv : p.velocity.y = 0)
    (hy : p.position.y = 20) (dts : List ℝ) (hlen : dts.length ≤ 48) :
    (p.updates dts).velocity.y = -(dts.length : ℝ) / 100 ∧
    (p.updates dts).position.y = 20 - (dts.length : ℝ) * ((dts.length : ℝ) + 1) / 200 := by
  induction dts using List.reverseRecOn with
  | nil => simp [PlayerController.updates, hv, hy]
  | append_singleton dts dt ih =>
    rw [List.length_append, List.length_singleton] at hlen
    obtain ⟨ihv, ihy⟩ := ih (by omega)
    have hn : (dts.length : ℝ) ≤ 47 := by
      have : dts.length ≤ 47 := by omega
      exact_mod_cast this
    have hn0 : (0 : ℝ) ≤ (dts.length : ℝ) := Nat.cast_nonneg _
    have hnot : ¬ (p.updates dts).position.y +
        ((p.updates dts).velocity.y + CONFIG.PLAYER.GRAVITY) < 8 := by
      rw [ihv, ihy, CONFIG.PLAYER.GRAVITY, not_lt]
      nlinarith [mul_nonneg hn0 hn0, mul_nonneg (sub_nonneg.2 hn) hn0]
    obtain ⟨h1, h2, -⟩ := (update_vertical (p.updates dts) dt).2 hnot
    rw [updates_concat, h1, h2, ihv, ihy, CONFIG.PLAYER.GRAVITY, List.length_append,
      List.length_singleton]
    push_cast
    constructor <;> ring

theorem landed_stays (p : PlayerController) (dt : ℝ) (hy : p.position.y = 8)
    (hv : p.velocity.y = 0) :
    (p.update dt).position.y = 8 ∧ (p.update dt).velocity.y = 0 := by
  have h : p.position.y + (p.velocity.y + CONFIG.PLAYER.GRAVITY) < 8 := by
    rw [hy, hv, CONFIG.PLAYER.GRAVITY]
    norm_num
  exact ⟨((update_vertical p dt).1 h).1, ((update_vertical p dt).1 h).2.1⟩

theorem fall_crossing (p : PlayerController) (hv : p.velocity.y = 0)
    (hy : p.position.y = 20) (dts : List ℝ) (hlen : dts.length = 48) :
    (p.updates dts).position.y + ((p.updates dts).velocity.y + CONFIG.PLAYER.GRAVITY) < 8 := by
  obtain ⟨h1, h2⟩ := fall_closed_form p hv hy dts (by omega)
  rw [h1, h2, hlen, CONFIG.PLAYER.GRAVITY]
  norm_num

theorem fall_landed (p : PlayerController) (hv : p.velocity.y = 0)
    (hy : p.position.y = 20) (dts : List ℝ) (hlen : 49 ≤ dts.length) :
    (p.updates dts).position.y = 8 ∧ (p.updates dts).velocity.y = 0 := by
  induction dts using List.reverseRecOn with
  | nil => simp at hlen
  | append_singleton dts dt ih =>
    rw [List.length_append, List.length_singleton] at hlen
    rw [updates_concat]
    by_cases h48 : dts.length = 48
    · have hc := fall_crossing p hv hy dts h48
      exact ⟨((update_vertical _ dt).1 hc).1, ((update_vertical _ dt).1 hc).2.1⟩
    · obtain ⟨h1, h2⟩ := ih (by omega)
      exact landed_stays _ dt h1 h2

/-- C7: a player with `velocity.y = 0` at `position.y = 20` (whatever the
horizontal input) is, after `n ≤ 48` calls of `update`, at
`position.y = 20 - n (n + 1) / 200 > 8` with `velocity.y = -n / 100`, and each
of these calls lowers `position.y`; on the 49th call the position would fall
below 8, so that call leaves `position.y = 8` and `velocity.y = 0`, and so
does every later call. -/
theorem C7_fall_from_20_lands_on_tick_49 (p : PlayerController) (hv : p.velocity.y = 0)
    (hy : p.position.y = 20) :
    (∀ dts : List ℝ, dts.length ≤ 48 →
      (p.updates dts).position.y = 20 - (dts.length : ℝ) * ((dts.length : ℝ) + 1) / 200 ∧
      (p.updates dts).velocity.y = -(dts.length : ℝ) / 100 ∧
      8 < (p.updates dts).position.y) ∧
    (∀ (dts : List ℝ) (dt : ℝ), dts.length < 48 →
      (p.updates (dts ++ [dt])).position.y < (p.updates dts).position.y) ∧
    (∀ dts : List ℝ, dts.length = 48 →
      (p.updates dts).position.y + ((p.updates dts).velocity.y + CONFIG.PLAYER.GRAVITY) < 8) ∧
    (∀ dts : List ℝ, 49 ≤ dts.length →
      (p.updates dts).position.y = 8 ∧ (p.updates dts).velocity.y = 0) := by
  refine ⟨?_, ?_, fall_crossing p hv hy, fall_landed p hv hy⟩
  · intro dts hlen
    obtain ⟨h1, h2⟩ := fall_closed_form p hv hy dts hlen
    refine ⟨h2, h1, ?_⟩
    rw [h2]
    have hn : (dts.length : ℝ) ≤ 48 := by exact_mod_cast hlen
    have hn0 : (0 : ℝ) ≤ (dts.length : ℝ) := Nat.cast_nonneg _
    nlinarith [mul_nonneg hn0 hn0, mul_nonneg (sub_nonneg.2 hn) hn0]
  · intro dts dt hlen
    obtain ⟨-, h2⟩ := fall_closed_form p hv hy dts (by omega)
    obtain ⟨-, h2'⟩ := fall_closed_form p hv hy (dts ++ [dt])
      (by rw [List.length_append, List.length_singleton]; omega)
    rw [h2, h2', List.length_append, List.length_singleton]
    push_cast
    have hn0 : (0 : ℝ) ≤ (dts.length : ℝ) := Nat.cast_nonneg _
    nlinarith

/-- A controller at rest at height 20: after 48 frames it is at `y = 8.24`,
after 49 frames at `y = 8` with `velocity.y = 0`, and still so after 60. -/
theorem C7_fall_from_20_lands_on_tick_49_witness :
    (({ PlayerController.initial with position := { x := 0, y := 20, z := 0 } } :
        PlayerController).updates (List.replicate 48 0)).position.y = 8.24 ∧
    (({ PlayerController.initial with position := { x := 0, y := 20, z := 0 } } :
        PlayerController).updates (List.replicate 49 0)).position.y = 8 ∧
    (({ PlayerController.initial with position := { x := 0, y := 20, z := 0 } } :
        PlayerController).updates (List.replicate 49 0)).velocity.y = 0 ∧
    (({ PlayerController.initial with position := { x := 0, y := 20, z := 0 } } :
        PlayerController).updates (List.replicate 60 0)).position.y = 8 := by
  have h := C7_fall_from_20_lands_on_tick_49
    ({ PlayerController.initial with position := { x := 0, y := 20, z := 0 } } :
      PlayerController) rfl rfl
  refine ⟨?_, (h.2.2.2 (List.replicate 49 0) (by simp)).1,
    (h.2.2.2 (List.replicate 49 0) (by simp)).2, (h.2.2.2 (List.replicate 60 0) (by simp)).1⟩
  rw [(h.1 (List.replicate 48 0) (by simp)).1]
  simp only [List.length_replicate]
  norm_num

/-! ## Player: movement from input -/

theorem moveVector_y (p : PlayerController) : p.moveVector.y = 0 := by
  unfold PlayerController.moveVector
  simp only
  split_ifs <;> rfl

theorem applyAxisAngle_yAxis (v : Vector3) (angle : ℝ) :
    (Vector3.applyAxisAngle v { x := 0, y := 1, z := 0 } angle).x =
      v.x * Real.cos angle + v.z * Real.sin angle ∧
    (Vector3.applyAxisAngle v { x := 0, y := 1, z := 0 } angle).y = v.y ∧
    (Vector3.applyAxisAngle v { x := 0, y := 1, z := 0 } angle).z =
      v.z * Real.cos angle - v.x * Real.sin angle := by
  have hs : Real.sin angle = 2 * Real.sin (angle / 2) * Real.cos (angle / 2) := by
    rw [← Real.sin_two_mul]
    congr 1
    ring
  have hc : Real.cos angle = Real.cos (angle / 2) ^ 2 - Real.sin (angle / 2) ^ 2 := by
    rw [← Real.cos_two_mul']
    congr 1
    ring
  have h1 := Real.sin_sq_add_cos_sq (angle / 2)
  simp only [Vector3.applyAxisAngle, Vector3.applyQuaternion, Quaternion.setFromAxisAngle]
  refine ⟨?_, ?_, ?_⟩
  · rw [hs, hc]
    ring
  · linear_combination v.y * h1
  · rw [hs, hc]
    ring

theorem update_moving (p : PlayerController) (dt : ℝ)
    (hmove : Vector3.length p.moveVector > 0) :
    (p.update dt).velocity.x =
      (Vector3.applyAxisAngle
        (Vector3.multiplyScalar (Vector3.normalize p.moveVector) CONFIG.PLAYER.MOVE_SPEED)
        { x := 0, y := 1, z := 0 } p.rotation.y).x ∧
    (p.update dt).velocity.z =
      (Vector3.applyAxisAngle
        (Vector3.multiplyScalar (Vector3.normalize p.moveVector) CONFIG.PLAYER.MOVE_SPEED)
        { x := 0, y := 1, z := 0 } p.rotation.y).z := by
  unfold PlayerController.update
  by_cases h : p.position.y + (p.velocity.y + CONFIG.PLAYER.GRAVITY) < 8 <;>
    simp [hmove, h, Vector3.add]

theorem normalize_scaled (v : Vector3) (s : ℝ) (hpos : Vector3.length v > 0) :
    (Vector3.multiplyScalar (Vector3.normalize v) s).x = s * (v.x / Vector3.length v) ∧
    (Vector3.multiplyScalar (Vector3.normalize v) s).z = s * (v.z / Vector3.length v) := by
  have hne : Vector3.length v ≠ 0 := ne_of_gt hpos
  simp only [Vector3.multiplyScalar, Vector3.normalize, Vector3.divideScalar, jsOr, hne,
    ne_eq, not_false_eq_true, if_true]
  constructor <;> ring

theorem moveVector_length_sq (p : PlayerController) :
    Vector3.length p.moveVector ^ 2 = p.moveVector.x ^ 2 + p.moveVector.z ^ 2 := by
  unfold Vector3.length
  rw [moveVector_y, Real.sq_sqrt (by
    nlinarith [mul_self_nonneg p.moveVector.x, mul_self_nonneg p.moveVector.z])]
  ring

theorem update_moving_formula (p : PlayerController) (dt : ℝ)
    (hmove : Vector3.length p.moveVector > 0) :
    (p.update dt).velocity.x =
      CONFIG.PLAYER.MOVE_SPEED * (p.moveVector.x / Vector3.length p.moveVector) *
          Real.cos p.rotation.y +
        CONFIG.PLAYER.MOVE_SPEED * (p.moveVector.z / Vector3.length p.moveVector) *
          Real.sin p.rotation.y ∧
    (p.update dt).velocity.z =
      CONFIG.PLAYER.MOVE_SPEED * (p.moveVector.z / Vector3.length p.moveVector) *
          Real.cos p.rotation.y -
        CONFIG.PLAYER.MOVE_SPEED * (p.moveVector.x / Vector3.length p.moveVector) *
          Real.sin p.rotation.y := by
  obtain ⟨hx, hz⟩ := update_moving p dt hmove
  obtain ⟨rx, -, rz⟩ := applyAxisAngle_yAxis
    (Vector3.multiplyScalar (Vector3.normalize p.moveVector) CONFIG.PLAYER.MOVE_SPEED)
    p.rotation.y
  obtain ⟨nx, nz⟩ := normalize_scaled p.moveVector CONFIG.PLAYER.MOVE_SPEED hmove
  rw [hx, hz, rx, rz, nx, nz]
  exact ⟨rfl, rfl⟩

/-- C8: whenever the raw move vector built from the keys and the joystick has
non-zero length `L`, `update` sets `(velocity.x, velocity.z)` to that vector
divided by `L`, scaled by MOVE_SPEED and rotated about the world Y axis by the
yaw `rotation.y`; the result does not depend on the previous velocity, and the
horizontal speed `sqrt (velocity.x ^ 2 + velocity.z ^ 2)` is exactly
MOVE_SPEED `= 0.1`, for every yaw and every input. -/
theorem C8_move_sets_rotated_unit_velocity (p : PlayerController) (dt : ℝ)
    (hmove : Vector3.length p.moveVector > 0) :
    ((p.update dt).velocity.x =
      CONFIG.PLAYER.MOVE_SPEED * (p.moveVector.x / Vector3.length p.moveVector) *
          Real.cos p.rotation.y +
        CONFIG.PLAYER.MOVE_SPEED * (p.moveVector.z / Vector3.length p.moveVector) *
          Real.sin p.rotation.y ∧
     (p.update dt).velocity.z =
      CONFIG.PLAYER.MOVE_SPEED * (p.moveVector.z / Vector3.length p.moveVector) *
          Real.cos p.rotation.y -
        CONFIG.PLAYER.MOVE_SPEED * (p.moveVector.x / Vector3.length p.moveVector) *
          Real.sin p.rotation.y) ∧
    Vector3.length p.moveVector = Real.sqrt (p.moveVector.x ^ 2 + p.moveVector.z ^ 2) ∧
    (∀ v : Vector3,
      (({ p with velocity := v } : PlayerController).update dt).velocity.x =
        (p.update dt).velocity.x ∧
      (({ p with velocity := v } : PlayerController).update dt).velocity.z =
        (p.update dt).velocity.z) ∧
    Real.sqrt ((p.update dt).velocity.x ^ 2 + (p.update dt).velocity.z ^ 2) =
      CONFIG.PLAYER.MOVE_SPEED ∧
    CONFIG.PLAYER.MOVE_SPEED = 0.1 := by
  obtain ⟨hx, hz⟩ := update_moving_formula p dt hmove
  have hL := moveVector_length_sq p
  have hne : Vector3.length p.moveVector ≠ 0 := ne_of_gt hmove
  refine ⟨⟨hx, hz⟩, ?_, ?_, ?_, rfl⟩
  · rw [← hL]
    exact (Real.sqrt_sq (le_of_lt hmove)).symm
  · intro v
    obtain ⟨hx', hz'⟩ := update_moving_formula ({ p with velocity := v } : PlayerController) dt
      hmove
    rw [hx, hz, hx', hz']
    exact ⟨rfl, rfl⟩
  · have hab : (p.moveVector.x / Vector3.length p.moveVector) ^ 2 +
        (p.moveVector.z / Vector3.length p.moveVector) ^ 2 = 1 := by
      rw [div_pow, div_pow, ← add_div, ← hL]
      exact div_self (pow_ne_zero 2 hne)
    have hsc := Real.sin_sq_add_cos_sq p.rotation.y
    have hsum : (p.update dt).velocity.x ^ 2 + (p.update dt).velocity.z ^ 2 =
        CONFIG.PLAYER.MOVE_SPEED ^ 2 := by
      rw [hx, hz]
      linear_combination
        CONFIG.PLAYER.MOVE_SPEED ^ 2 *
            (Real.sin p.rotation.y ^ 2 + Real.cos p.rotation.y ^ 2) * hab +
          CONFIG.PLAYER.MOVE_SPEED ^ 2 * hsc
    rw [hsum]
    exact Real.sqrt_sq (by norm_num [CONFIG.PLAYER.MOVE_SPEED])

/-- Holding W and D together (a diagonal): the raw move vector `(1, 0, -1)` has
positive length, so C8 applies and the horizontal speed is 0.1, not more. -/
theorem C8_move_sets_rotated_unit_velocity_witness :
    Vector3.length
      (({ PlayerController.initial with
          keys := fun c => decide (c = "KeyW") || decide (c = "KeyD") } :
        PlayerController).moveVector) > 0 ∧
    Real.sqrt
      (((({ PlayerController.initial with
            keys := fun c => decide (c = "KeyW") || decide (c = "KeyD") } :
          PlayerController).update 0).velocity.x) ^ 2 +
        ((({ PlayerController.initial with
            keys := fun c => decide (c = "KeyW") || decide (c = "KeyD") } :
          PlayerController).update 0).velocity.z) ^ 2) = 0.1 := by
  have hm : ({ PlayerController.initial with
      keys := fun c => decide (c = "KeyW") || decide (c = "KeyD") } :
        PlayerController).moveVector = { x := 1, y := 0, z := -1 } := by
    simp [PlayerController.moveVector, PlayerController.initial, jsOr]
  have hpos : Vector3.length
      (({ PlayerController.initial with
          keys := fun c => decide (c = "KeyW") || decide (c = "KeyD") } :
        PlayerController).moveVector) > 0 := by
    rw [hm]
    exact Real.sqrt_pos.2 (by norm_num)
  have h := (C8_move_sets_rotated_unit_velocity _ 0 hpos).2.2.2
  exact ⟨hpos, h.1.trans h.2⟩

/-! ## Player: looking around -/

theorem look_rotation (p : PlayerController) (deltaX deltaY sensitivity : ℝ) :
    (p.look deltaX deltaY sensitivity).rotation.x =
      max (-Real.pi / 2) (min (Real.pi / 2) (p.rotation.x - deltaY * sensitivity)) ∧
    (p.look deltaX deltaY sensitivity).rotation.y = p.rotation.y - deltaX * sensitivity :=
  ⟨rfl, rfl⟩

theorem look_pitch_bounds (p : PlayerController) (deltaX deltaY sensitivity : ℝ) :
    -Real.pi / 2 ≤ (p.look deltaX deltaY sensitivity).rotation.x ∧
    (p.look deltaX deltaY sensitivity).rotation.x ≤ Real.pi / 2 := by
  rw [(look_rotation p deltaX deltaY sensitivity).1]
  refine ⟨le_max_left _ _, max_le ?_ (min_le_left _ _)⟩
  linarith [Real.pi_pos]

theorem clamp_cases (lo hi v : ℝ) (h : lo ≤ hi) :
    max lo (min hi v) = if v < lo then lo else if hi < v then hi else v := by
  split_ifs with h1 h2
  · rw [min_eq_right (by linarith), max_eq_left (le_of_lt h1)]
  · rw [min_eq_left (le_of_lt h2), max_eq_right h]
  · rw [min_eq_right (not_lt.1 h2), max_eq_right (not_lt.1 h1)]

theorem step_pitch_bounds (p : PlayerController) (e : Event)
    (h : -Real.pi / 2 ≤ p.rotation.x ∧ p.rotation.x ≤ Real.pi / 2) :
    -Real.pi / 2 ≤ (p.step e).rotation.x ∧ (p.step e).rotation.x ≤ Real.pi / 2 := by
  cases e with
  | keydown code => exact h
  | keyup code => exact h
  | mousemove pointerLocked movementX movementY =>
    cases pointerLocked
    · exact h
    · exact look_pitch_bounds p _ _ _
  | joystick x y => exact h
  | jumpButton =>
    show -Real.pi / 2 ≤ p.jump.rotation.x ∧ p.jump.rotation.x ≤ Real.pi / 2
    unfold PlayerController.jump
    split_ifs <;> exact h
  | touchstart onControls clientX clientY =>
    cases onControls <;> exact h
  | touchmove onControls clientX clientY =>
    show -Real.pi / 2 ≤ (p.onTouchmove onControls clientX clientY).rotation.x ∧
      (p.onTouchmove onControls clientX clientY).rotation.x ≤ Real.pi / 2
    unfold PlayerController.onTouchmove
    split_ifs
    · exact h
    · exact look_pitch_bounds p _ _ _
  | touchend => exact h
  | frame deltaTime =>
    show -Real.pi / 2 ≤ (p.update deltaTime).rotation.x ∧
      (p.update deltaTime).rotation.x ≤ Real.pi / 2
    rw [(update_inputs p deltaTime).2.2.1]
    exact h

theorem run_pitch_bounds (events : List Event) (p : PlayerController)
    (h : -Real.pi / 2 ≤ p.rotation.x ∧ p.rotation.x ≤ Real.pi / 2) :
    -Real.pi / 2 ≤ (p.run events).rotation.x ∧ (p.run events).rotation.x ≤ Real.pi / 2 := by
  induction events generalizing p with
  | nil => exact h
  | cons e events ih => exact ih (p.step e) (step_pitch_bounds p e h)

/-- C9: a `mousemove` with the pointer locked, and a `touchmove` during an
active touch outside the mobile controls, set the pitch `rotation.x` to
`max (-pi/2) (min (pi/2) (rotation.x - deltaY * sensitivity))`, which is the
clamp of that value to `[-pi/2, pi/2]`, and the yaw `rotation.y` to
`rotation.y - deltaX * sensitivity`, unclamped; with the guard off they change
nothing. The pitch starts at 0, and after any sequence of events and frames
it lies in `[-pi/2, pi/2]`. -/
theorem C9_look_clamps_pitch_only :
    (∀ (p : PlayerController) (movementX movementY : ℝ),
      (p.onMousemove true movementX movementY).rotation.x =
        max (-Real.pi / 2)
          (min (Real.pi / 2) (p.rotation.x - movementY * CONFIG.CONTROLS.MOUSE_SENSITIVITY)) ∧
      (p.onMousemove true movementX movementY).rotation.y =
        p.rotation.y - movementX * CONFIG.CONTROLS.MOUSE_SENSITIVITY ∧
      p.onMousemove false movementX movementY = p) ∧
    (∀ (p : PlayerController) (clientX clientY : ℝ),
      (p.touch.active = true →
        (p.onTouchmove false clientX clientY).rotation.x =
          max (-Real.pi / 2)
            (min (Real.pi / 2)
              (p.rotation.x - (clientY - p.touchStartY) * CONFIG.CONTROLS.TOUCH_SENSITIVITY)) ∧
        (p.onTouchmove false clientX clientY).rotation.y =
          p.rotation.y - (clientX - p.touchStartX) * CONFIG.CONTROLS.TOUCH_SENSITIVITY) ∧
      (p.touch.active = false → p.onTouchmove false clientX clientY = p) ∧
      p.onTouchmove true clientX clientY = p) ∧
    (∀ v : ℝ,
      max (-Real.pi / 2) (min (Real.pi / 2) v) =
        if v < -Real.pi / 2 then -Real.pi / 2 else if Real.pi / 2 < v then Real.pi / 2 else v) ∧
    PlayerController.initial.rotation.x = 0 ∧
    (∀ events : List Event,
      -Real.pi / 2 ≤ (PlayerController.initial.run events).rotation.x ∧
      (PlayerController.initial.run events).rotation.x ≤ Real.pi / 2) := by
  refine ⟨?_, ?_, ?_, rfl, ?_⟩
  · intro p movementX movementY
    exact ⟨rfl, rfl, rfl⟩
  · intro p clientX clientY
    refine ⟨?_, ?_, ?_⟩
    · intro ha
      simp [PlayerController.onTouchmove, ha, look_rotation]
    · intro ha
      simp [PlayerController.onTouchmove, ha]
    · simp [PlayerController.onTouchmove]
  · intro v
    exact clamp_cases _ _ v (by linarith [Real.pi_pos])
  · intro events
    refine run_pitch_bounds events PlayerController.initial ?_
    simp only [PlayerController.initial]
    constructor <;> linarith [Real.pi_pos]

/-- One locked `mousemove` by `(-10000, -10000)` from the initial state: the
pitch would be 20 and is clamped to `pi / 2`; the yaw becomes 20, beyond `pi`,
unclamped. -/
theorem C9_look_clamps_pitch_only_witness :
    (PlayerController.initial.run [Event.mousemove true (-10000) (-10000)]).rotation.x =
      Real.pi / 2 ∧
    (PlayerController.initial.run [Event.mousemove true (-10000) (-10000)]).rotation.y = 20 ∧
    -Real.pi / 2 ≤
      (PlayerController.initial.run [Event.mousemove true (-10000) (-10000)]).rotation.x := by
  have h := C9_look_clamps_pitch_only.1 PlayerController.initial (-10000) (-10000)
  have hb := C9_look_clamps_pitch_only.2.2.2.2 [Event.mousemove true (-10000) (-10000)]
  have hrun : PlayerController.initial.run [Event.mousemove true (-10000) (-10000)] =
      PlayerController.initial.onMousemove true (-10000) (-10000) := rfl
  have hpi : Real.pi / 2 ≤ 20 := by linarith [Real.pi_le_four]
  refine ⟨?_, ?_, hb.1⟩
  · rw [hrun, h.1]
    have h20 : PlayerController.initial.rotation.x -
        -10000 * CONFIG.CONTROLS.MOUSE_SENSITIVITY = 20 := by
      norm_num [PlayerController.initial, CONFIG.CONTROLS.MOUSE_SENSITIVITY]
    rw [h20, min_eq_left hpi, max_eq_right (by linarith [Real.pi_pos])]
  · rw [hrun, h.2.1]
    norm_num [PlayerController.initial, CONFIG.CONTROLS.MOUSE_SENSITIVITY]

/-! ## Player: the jump flags -/

theorem jump_flags (p : PlayerController) (jumped : Bool)
    (h1 : p.isJumping = !p.canJump) (h2 : p.canJump = !jumped) :
    p.jump.isJumping = !p.jump.canJump ∧ p.jump.canJump = !true := by
  unfold PlayerController.jump
  cases hc : p.canJump <;> cases hi : p.isJumping <;> simp_all

theorem update_flags (p : PlayerController) (dt : ℝ) (jumped : Bool)
    (h1 : p.isJumping = !p.canJump) (h2 : p.canJump = !jumped) :
    (p.update dt).isJumping = !(p.update dt).canJump ∧
    (p.update dt).canJump = !(if p.groundContact then false else jumped) := by
  by_cases hg : p.position.y + (p.velocity.y + CONFIG.PLAYER.GRAVITY) < 8
  · obtain ⟨-, -, hc, hi⟩ := (update_vertical p dt).1 hg
    have hgc : p.groundContact = true := by simp [PlayerController.groundContact, hg]
    rw [hc, hi, hgc]
    exact ⟨rfl, rfl⟩
  · obtain ⟨-, -, hc, hi⟩ := (update_vertical p dt).2 hg
    have hgc : p.groundContact = false := by simp [PlayerController.groundContact, hg]
    rw [hc, hi, hgc]
    exact ⟨h1, h2⟩

theorem run_flags (events : List Event) (p : PlayerController) (jumped : Bool)
    (h1 : p.isJumping = !p.canJump) (h2 : p.canJump = !jumped) :
    (p.run events).isJumping = !(p.run events).canJump ∧
    (p.run events).canJump = !p.jumpedSinceGround jumped events := by
  induction events generalizing p jumped with
  | nil => exact ⟨h1, h2⟩
  | cons e events ih =>
    have hrun : p.run (e :: events) = (p.step e).run events := rfl
    rw [hrun]
    cases e with
    | keydown code => exact ih _ jumped h1 h2
    | keyup code => exact ih _ jumped h1 h2
    | mousemove pointerLocked movementX movementY =>
      cases pointerLocked
      · exact ih _ jumped h1 h2
      · exact ih _ jumped h1 h2
    | joystick x y => exact ih _ jumped h1 h2
    | jumpButton =>
      obtain ⟨j1, j2⟩ := jump_flags p jumped h1 h2
      exact ih p.jump true j1 j2
    | touchstart onControls clientX clientY =>
      cases onControls
      · exact ih _ jumped h1 h2
      · exact ih _ jumped h1 h2
    | touchmove onControls clientX clientY =>
      have hstep : (p.step (Event.touchmove onControls clientX clientY)).isJumping =
            p.isJumping ∧
          (p.step (Event.touchmove onControls clientX clientY)).canJump = p.canJump := by
        show (p.onTouchmove onControls clientX clientY).isJumping = p.isJumping ∧
          (p.onTouchmove onControls clientX clientY).canJump = p.canJump
        unfold PlayerController.onTouchmove
        split_ifs
        · exact ⟨rfl, rfl⟩
        · exact ⟨rfl, rfl⟩
      exact ih _ jumped (by rw [hstep.1, hstep.2, h1]) (by rw [hstep.2, h2])
    | touchend => exact ih _ jumped h1 h2
    | frame deltaTime =>
      obtain ⟨u1, u2⟩ := update_flags p deltaTime jumped h1 h2
      exact ih (p.update deltaTime) _ u1 u2

/-- C11: the controller starts with `canJump = true` and `isJumping = false`,
and in every state reached from it by any sequence of `update` and `jump`
calls (and of any other input event) exactly one of `canJump` and `isJumping`
is true, that is `isJumping = !canJump`; the guard `canJump && !isJumping` of
`jump` then holds exactly when `jump()` has not been called since the last
ground contact, or since the start when there was none yet. -/
theorem C11_exactly_one_of_canJump_isJumping (events : List Event) :
    (PlayerController.initial.canJump = true ∧ PlayerController.initial.isJumping = false) ∧
    (PlayerController.initial.run events).isJumping =
      !(PlayerController.initial.run events).canJump ∧
    (((PlayerController.initial.run events).canJump = true ∧
        (PlayerController.initial.run events).isJumping = false) ∨
      ((PlayerController.initial.run events).canJump = false ∧
        (PlayerController.initial.run events).isJumping = true)) ∧
    (((PlayerController.initial.run events).canJump &&
        !(PlayerController.initial.run events).isJumping) = true ↔
      PlayerController.initial.jumpedSinceGround false events = false) := by
  obtain ⟨h1, h2⟩ := run_flags events PlayerController.initial false rfl rfl
  refine ⟨⟨rfl, rfl⟩, h1, ?_, ?_⟩
  · cases hc : (PlayerController.initial.run events).canJump <;> simp_all
  · rw [h1, h2]
    cases PlayerController.initial.jumpedSinceGround false events <;> simp

/-- One frame of free fall from the spawn height, then two presses of the jump
button: before the presses a jump is permitted (no jump since the start), the
first press sets `isJumping` and clears `canJump`, the second changes nothing,
and C11 holds in the state reached. -/
theorem C11_exactly_one_of_canJump_isJumping_witness :
    PlayerController.initial.jumpedSinceGround false [Event.frame 0] = false ∧
    PlayerController.initial.jumpedSinceGround false
      [Event.frame 0, Event.jumpButton, Event.jumpButton] = true ∧
    (PlayerController.initial.run
      [Event.frame 0, Event.jumpButton, Event.jumpButton]).canJump = false ∧
    (PlayerController.initial.run
      [Event.frame 0, Event.jumpButton, Event.jumpButton]).isJumping = true := by
  have hg : PlayerController.initial.groundContact = false := by
    simp only [PlayerController.groundContact, PlayerController.initial,
      CONFIG.PLAYER.GRAVITY]
    norm_num
  have hf : PlayerController.initial.jumpedSinceGround false [Event.frame 0] = false := by
    simp [PlayerController.jumpedSinceGround, hg]
  have hj : PlayerController.initial.jumpedSinceGround false
      [Event.frame 0, Event.jumpButton, Event.jumpButton] = true := by
    simp [PlayerController.jumpedSinceGround]
  have h := C11_exactly_one_of_canJump_isJumping
    [Event.frame 0, Event.jumpButton, Event.jumpButton]
  have hguard : ¬ ((PlayerController.initial.run
      [Event.frame 0, Event.jumpButton, Event.jumpButton]).canJump &&
      !(PlayerController.initial.run
        [Event.frame 0, Event.jumpButton, Event.jumpButton]).isJumping) = true := by
    rw [h.2.2.2, hj]
    decide
  refine ⟨hf, hj, ?_, ?_⟩
  · rcases h.2.2.1 with ⟨hc, hi⟩ | ⟨hc, hi⟩
    · exact absurd (by rw [hc, hi]; rfl) hguard
    · exact hc
  · rcases h.2.2.1 with ⟨hc, hi⟩ | ⟨hc, hi⟩
    · exact absurd (by rw [hc, hi]; rfl) hguard
    · exact hi

end VoxelGame
